import Mathlib

/-!
Verification of the ClawProxy translation gateway.

This file gives a shallow embedding, in Lean 4, of the parts of the
ClawProxy source that the specification's claims are about:

* `src/lib/stream-processor.ts` — the `ReasoningStreamProcessor` class
  (streaming reassembler);
* `server.ts` — `normalizeDeltaPayload`, the per-request streaming and
  non-streaming `eventHandler`s, the approval gate, and the hourly
  cleanup sweep of the session / pending-approval maps;
* `src/lib/client.ts` — the live WebSocket message handler of
  `GatewayClient.connect` and the (unreferenced) `handleMessage` method.

JavaScript strings are modelled as `List Char` (`Str`); dynamically
typed JS values as the inductive `JsValue`; JS `Map`s as functions
`String → Option α` (keys of a JS `Map` are unique, so the functional
view is exact for get/set/delete/iteration-based filtering).  Mutable
class / closure state is passed explicitly as state records, and each
event-handler closure becomes a step function on that state.
-/

namespace ClawProxy

/-- JS strings as lists of characters. -/
abbrev Str := List Char

/-- Dynamically typed JavaScript values, as far as the embedded code
inspects them.  `undefined` is `undefined` (a missing field reads as
`undefined`); arrays and functions do not occur in the payloads the
embedded code manipulates. -/
inductive JsValue where
  | null
  | undefined
  | str (s : Str)
  | num (n : Int)
  | bool (b : Bool)
  | obj (fields : List (String × JsValue))

/-- JS truthiness of a value (`if (v)`): `null`, `undefined`, `false`,
`0` and `""` are falsy, everything else (including any object) truthy. -/
def JsValue.truthy : JsValue → Bool
  | .null => false
  | .undefined => false
  | .str s => !s.isEmpty
  | .num n => n != 0
  | .bool b => b
  | .obj _ => true

/-- JS `a || b` at value level: `b` if `a` is falsy, else `a`. -/
def jsOr (a b : JsValue) : JsValue := if a.truthy then a else b

/-- Reading an optional field: an absent field reads as `undefined`. -/
def fieldVal (o : Option JsValue) : JsValue := o.getD .undefined

/-- The string carried by a value if it is a string (`typeof v === 'string'`). -/
def JsValue.asString : JsValue → Option Str
  | .str s => some s
  | _ => none

/-- JS strict equality of a value with a string literal (`v === 'lit'`):
false when `v` is not a string. -/
def JsValue.isStrEq (v : JsValue) (s : Str) : Bool :=
  match v with
  | .str t => t == s
  | _ => false

/-- Truthiness of an optional string (e.g. a nullable `runId` variable):
JS `if (x)` where `x : string | null | undefined`. -/
def jsTruthyOptStr : Option Str → Bool
  | none => false
  | some s => !s.isEmpty

/-- JS `String(v)` coercion, for the primitive values that can reach it
in the embedded code. -/
def jsToString : JsValue → Str
  | .null => "null".data
  | .undefined => "undefined".data
  | .str s => s
  | .num n => (toString n).data
  | .bool b => (if b then "true" else "false").data
  | .obj _ => "[object Object]".data

/-- JS whitespace characters recognised by `String.prototype.trim` that
can occur in chat message bodies. -/
def isJsWhitespace (c : Char) : Bool :=
  c == ' ' || c == '\t' || c == '\n' || c == '\r' || c == '\x0b' || c == '\x0c'

/-- JS `s.trim()`. -/
def jsTrim (s : Str) : Str :=
  ((s.dropWhile isJsWhitespace).reverse.dropWhile isJsWhitespace).reverse

/-- JS `s.toUpperCase()` (the embedded code only compares against the
ASCII token `"APPROVE"`). -/
def jsToUpper (s : Str) : Str := s.map Char.toUpper

/-- JS `hay.includes(needle)`: `needle` occurs contiguously in `hay`. -/
def containsSub (needle : Str) : Str → Bool
  | [] => needle.isEmpty
  | c :: rest => needle.isPrefixOf (c :: rest) || containsSub needle rest

/-! ## Streaming reassembler (`src/lib/stream-processor.ts`) -/

/-- The opening reasoning marker injected by the processor. -/
def thinkTag : Str := "<think>".data

/-- The closing marker plus blank-line separator injected by the
processor (`"</think>\n\n"`). -/
def thinkCloseTag : Str := "</think>\n\n".data

/-- Mutable state of a `ReasoningStreamProcessor` instance. -/
structure PState where
  isThinking : Bool
  hasBailed : Bool
  accumulatedReasoning : Str
  accumulatedContent : Str
deriving DecidableEq, Repr

/-- Fresh processor state (field initialisers of the class). -/
def PState.init : PState :=
  { isThinking := false, hasBailed := false
    accumulatedReasoning := [], accumulatedContent := [] }

/-- A delta object as the processor sees it: the five fields it reads
by name, plus the remaining fields (kept verbatim by the object spread
`{...delta}`).  `role` is carried as a raw value so that the JS check
`delta.role && delta.role !== 'assistant'` is modelled exactly. -/
structure DeltaObj where
  role : Option JsValue := none
  content : Option JsValue := none
  reasoning_content : Option JsValue := none
  thinking : Option JsValue := none
  thought : Option JsValue := none
  extra : List (String × JsValue) := []

/-- `ReasoningStreamProcessor.getIncremental(updated, existing)`. -/
def getIncremental (updated existing : Str) : Str :=
  if updated = [] then []
  else if existing ≠ [] ∧ existing <+: updated then updated.drop existing.length
  else updated

/-- `ReasoningStreamProcessor.processDelta(delta)`: returns the updated
processor state and the delta forwarded downstream. -/
def processDelta (st : PState) (delta : DeltaObj) : PState × DeltaObj :=
  if st.hasBailed then (st, delta)
  else if (fieldVal delta.role).truthy
       && !((fieldVal delta.role).isStrEq "assistant".data) then (st, delta)
  else
    let rawContent := jsOr (fieldVal delta.content) (.str [])
    let rawReasoning :=
      jsOr (fieldVal delta.reasoning_content)
        (jsOr (fieldVal delta.thinking) (jsOr (fieldVal delta.thought) (.str [])))
    if (match rawContent.asString with
        | some s => containsSub thinkTag s
        | none => false) then
      ({ st with hasBailed := true }, delta)
    else
      let out := { delta with reasoning_content := none, thinking := none, thought := none }
      -- 1. Process Reasoning
      let step1 : PState × Str :=
        match rawReasoning.truthy, rawReasoning.asString with
        | true, some s =>
          let newReasoning := getIncremental s st.accumulatedReasoning
          if newReasoning ≠ [] then
            if !st.isThinking then
              ({ st with isThinking := true,
                         accumulatedReasoning := st.accumulatedReasoning ++ newReasoning },
               thinkTag ++ newReasoning)
            else
              ({ st with accumulatedReasoning := st.accumulatedReasoning ++ newReasoning },
               newReasoning)
          else (st, [])
        | _, _ => (st, [])
      let st1 := step1.1
      let inc1 := step1.2
      -- 2. Process Content
      let step2 : PState × Str :=
        match rawContent.truthy, rawContent.asString with
        | true, some s =>
          let newContent := getIncremental s st1.accumulatedContent
          if newContent ≠ [] then
            if st1.isThinking then
              ({ st1 with isThinking := false,
                          accumulatedContent := st1.accumulatedContent ++ newContent },
               inc1 ++ thinkCloseTag ++ newContent)
            else
              ({ st1 with accumulatedContent := st1.accumulatedContent ++ newContent },
               inc1 ++ newContent)
          else (st1, inc1)
        | _, _ => (st1, inc1)
      let st2 := step2.1
      let incrementalContent := step2.2
      if incrementalContent ≠ [] then
        (st2, { out with content := some (.str incrementalContent) })
      else
        (st2, { out with content := none })

/-- `ReasoningStreamProcessor.processFullResponse(content, reasoning)`. -/
def processFullResponse (content : Str) (reasoning : Str) : Str :=
  if (jsTrim reasoning).isEmpty then content
  else if containsSub thinkTag content then content
  else thinkTag ++ reasoning ++ thinkCloseTag ++ content

/-- Runs the processor over a list of deltas, collecting the outputs. -/
def runDeltas (st : PState) : List DeltaObj → PState × List DeltaObj
  | [] => (st, [])
  | d :: ds =>
    let r := processDelta st d
    let rest := runDeltas r.1 ds
    (rest.1, r.2 :: rest.2)

/-- The text a forwarded delta contributes downstream (its `content`
field when that is a string, nothing otherwise). -/
def emittedText (d : DeltaObj) : Str :=
  match d.content with
  | some (.str s) => s
  | _ => []

/-- Concatenated downstream text of a list of forwarded deltas. -/
def outText (ds : List DeltaObj) : Str := (ds.map emittedText).flatten

/-- A content-only delta (no role, no reasoning aliases), as fed in the
cumulative-snapshot scenario. -/
def contentDelta (s : Str) : DeltaObj := { content := some (.str s) }

/-- A reasoning-only delta carrying `reasoning_content`. -/
def reasoningDelta (s : Str) : DeltaObj := { reasoning_content := some (.str s) }

/-- C4: the cumulative snapshots G, GE, GEM fed as successive content
deltas yield the incremental contributions G, E, M (concatenating to
GEM); in general `getIncremental` emits only the suffix past the
accumulation when the new value starts with a non-empty accumulation,
and the value verbatim otherwise. -/
theorem cumulative_snapshots_reassembled :
    ((runDeltas PState.init
        [contentDelta "G".data, contentDelta "GE".data, contentDelta "GEM".data]).2.map
      emittedText = ["G".data, "E".data, "M".data]
     ∧ outText (runDeltas PState.init
        [contentDelta "G".data, contentDelta "GE".data, contentDelta "GEM".data]).2
       = "GEM".data)
    ∧ (∀ v a : Str, a ≠ [] → a <+: v → getIncremental v a = v.drop a.length)
    ∧ (∀ v a : Str, a = [] ∨ ¬ a <+: v → getIncremental v a = v) := by
  refine ⟨by decide, ?_, ?_⟩
  · intro v a ha hpre
    have hv : v ≠ [] := by
      rintro rfl; exact ha (List.prefix_nil.mp hpre)
    simp [getIncremental, hv, ha, hpre]
  · intro v a h
    rcases eq_or_ne v [] with rfl | hv
    · simp [getIncremental]
    · rcases h with rfl | h
      · simp [getIncremental, hv]
      · simp [getIncremental, hv, h]

/-- C4 witness: the theorem applied at the concrete cumulative pair
(GE, GEM) and at a non-prefix pair. -/
theorem cumulative_snapshots_reassembled_witness :
    getIncremental "GEM".data "GE".data = "M".data
    ∧ getIncremental "B".data "A".data = "B".data := by
  constructor
  · exact (cumulative_snapshots_reassembled.2.1 "GEM".data "GE".data
      (by decide) (by decide)).trans (by decide)
  · exact (cumulative_snapshots_reassembled.2.2 "B".data "A".data
      (Or.inr (by decide))).trans rfl

/-! ## Server (`server.ts`): delta normalisation -/

/-- `FORBIDDEN_FIELDS` (server.ts line 707). -/
def FORBIDDEN_FIELDS : List String :=
  ["follow_ups", "metadata", "tool_output", "actions", "usage", "runId", "sessionKey"]

/-- `normalizeDeltaPayload(delta)`: a raw event delta as a plain object.
The keys of a JS object literal are unique, so deleting the forbidden
keys from the spread copy is a filter. -/
def normalizeDeltaPayload : JsValue → List (String × JsValue)
  | .null => []
  | .undefined => []
  | .str s => [("content", .str s)]
  | .obj fields => fields.filter (fun kv => !(FORBIDDEN_FIELDS.contains kv.1))
  | .num n => [("content", .str (jsToString (.num n)))]
  | .bool b => [("content", .str (jsToString (.bool b)))]

/-- Field lookup on a normalised object. -/
def lookupField (fields : List (String × JsValue)) (k : String) : Option JsValue :=
  (fields.find? (fun kv => kv.1 == k)).map Prod.snd

/-- The view of a plain JS object that `processDelta` takes of it:
the five fields it reads by name, and the rest verbatim. -/
def toDeltaObj (fields : List (String × JsValue)) : DeltaObj :=
  { role := lookupField fields "role"
    content := lookupField fields "content"
    reasoning_content := lookupField fields "reasoning_content"
    thinking := lookupField fields "thinking"
    thought := lookupField fields "thought"
    extra := fields.filter (fun kv =>
      !(["role", "content", "reasoning_content", "thinking", "thought"].contains kv.1)) }

/-- Truthiness of an optional object field (JS `obj.f` where `f` may be
absent). -/
def jsFieldTruthy (o : Option JsValue) : Bool := (fieldVal o).truthy

/-! ## Server: per-request streaming state machine

One HTTP streaming request owns: the SSE sink, a `ReasoningStreamProcessor`,
the mutable `runId` / `listenerRemoved` / `assistantRoleSent` variables of
the route closure, and its registration on the gateway client's event
emitter.  `removals` counts the *effective* listener deregistrations
(`EventEmitter.off` removes the listener when present and is a no-op
otherwise, which `clientOff` models exactly). -/

/-- A pending approval entry (`pendingApprovals` map value).  The stored
`runId` is the handler's nullable `runId` variable (the source stores it
through a non-null assertion, so we keep it optional). -/
structure PendingApproval where
  runId : Option Str
  timestamp : Nat

/-- An item written to the SSE sink. -/
inductive SseItem where
  | chunk (delta : DeltaObj) (finish : Option String)
  | doneLine

/-- The state of one streaming chat-completion request. -/
structure StreamState where
  runId : Option Str
  listenerRemoved : Bool
  registered : Bool
  removals : Nat
  closed : Bool
  assistantRoleSent : Bool
  processor : PState
  pendingApprovals : String → Option PendingApproval
  out : List SseItem

/-- State right after `client.on('event', eventHandler)`: listener
registered, nothing written, fresh processor; `runId0` is the value left
by the approval check (`pending.runId` when resuming, else null). -/
def initStreamState (runId0 : Option Str)
    (pa : String → Option PendingApproval) : StreamState :=
  { runId := runId0, listenerRemoved := false, registered := true
    removals := 0, closed := false, assistantRoleSent := false
    processor := PState.init, pendingApprovals := pa, out := [] }

/-- `client.off('event', eventHandler)`: removes the listener if it is
registered, otherwise does nothing (EventEmitter removal is idempotent). -/
def clientOff (s : StreamState) : StreamState :=
  if s.registered then { s with registered := false, removals := s.removals + 1 } else s

/-- `writeSseChunk(delta, finishReason)`. -/
def writeSseChunk (s : StreamState) (delta : DeltaObj) (finish : Option String) : StreamState :=
  { s with out := s.out ++ [.chunk delta finish] }

/-- `sendAssistantRoleChunk()`. -/
def sendAssistantRoleChunk (s : StreamState) : StreamState :=
  if s.assistantRoleSent then s
  else writeSseChunk { s with assistantRoleSent := true }
    { role := some (.str "assistant".data) } none

/-- `sendContentChunk(text)` (`none` models a null/undefined argument). -/
def sendContentChunk (s : StreamState) (text : Option Str) : StreamState :=
  match text with
  | none => s
  | some t => writeSseChunk (sendAssistantRoleChunk s) { content := some (.str t) } none

/-- `forwardDelta(raw)`. -/
def forwardDelta (s : StreamState) (raw : JsValue) : StreamState :=
  let normalized := normalizeDeltaPayload raw
  if normalized.length = 0 then s
  else
    let r := processDelta s.processor (toDeltaObj normalized)
    let s1 := { s with processor := r.1 }
    let processed := r.2
    if !(jsFieldTruthy processed.content) && !(jsFieldTruthy processed.role) then s1
    else writeSseChunk (sendAssistantRoleChunk s1) processed none

/-- The payload of an `agent` event, as far as the handlers read it
(`data?.phase` and `data?.delta` are the two fields read through the
optional `data` object; `none` models an absent field). -/
structure AgentPayload where
  runId : Option Str := none
  sessionKey : Option Str := none
  status : Option String := none
  stream : Option String := none
  dataPhase : Option String := none
  dataDelta : Option JsValue := none
  delta : Option JsValue := none

/-- `evt.payload?.runId === runId`: strict equality, false when either
side is missing (`undefined === null` and `undefined === "x"` are both
false; the handler's `runId` starts out null). -/
def isTargetRun (runId : Option Str) (p : AgentPayload) : Bool :=
  match p.runId, runId with
  | some a, some b => a == b
  | _, _ => false

/-- `runId === null && evt.payload?.sessionKey === effectiveSessionId`. -/
def isTargetSession (effSessionId : Str) (runId : Option Str) (p : AgentPayload) : Bool :=
  runId.isNone && (match p.sessionKey with
    | some sk => sk == effSessionId
    | none => false)

/-- The handler's match rule: the event targets this binding's run, or
the binding has no runId yet and the event carries its session id. -/
def matchesBinding (effSessionId : Str) (runId : Option Str) (p : AgentPayload) : Bool :=
  isTargetRun runId p || isTargetSession effSessionId runId p

/-- The fixed confirmation notice text. -/
def approvalNotice : Str :=
  "\n\n⚠️ **[SYSTEM NOTICE]** The agent needs your approval to proceed. Please reply with **APPROVE** to authorize the action.".data

/-- Functional update of a JS `Map` (`map.set(k, v)`). -/
def mapSet {α : Type} (m : String → Option α) (k : String) (v : α) : String → Option α :=
  fun q => if q = k then some v else m q

/-- Functional deletion from a JS `Map` (`map.delete(k)`). -/
def mapDelete {α : Type} (m : String → Option α) (k : String) : String → Option α :=
  fun q => if q = k then none else m q

/-- The guarded removal used by the terminal paths and the close
handler: `if (!listenerRemoved) then listenerRemoved = true; client.off`. -/
def guardedOff (s : StreamState) : StreamState :=
  if !s.listenerRemoved then clientOff { s with listenerRemoved := true } else s

/-- The streaming `eventHandler` closure (server.ts lines 1050-1100),
as a step function; `now` is `Date.now()` at invocation time.  The
`registered` guard models the event emitter: a deregistered listener is
no longer invoked. -/
def eventHandler (effSessionId : Str) (sessionKey : String) (now : Nat)
    (s : StreamState) (evName : String) (p : AgentPayload) : StreamState :=
  if !s.registered then s
  else if evName == "agent" && matchesBinding effSessionId s.runId p then
    let s := if !(jsTruthyOptStr s.runId) && jsTruthyOptStr p.runId
             then { s with runId := p.runId } else s
    if p.status = some "requires_confirmation" then
      let s := sendContentChunk s (some approvalNotice)
      let s := { s with pendingApprovals := mapSet s.pendingApprovals sessionKey ⟨s.runId, now⟩ }
      let s := writeSseChunk s {} (some "stop")
      let s := { s with out := s.out ++ [SseItem.doneLine] }
      { guardedOff s with closed := true }
    else
      let s :=
        if p.stream == some "assistant" && p.dataDelta.isSome then
          forwardDelta s (fieldVal p.dataDelta)
        else if p.delta.isSome then forwardDelta s (fieldVal p.delta)
        else s
      let isLifecycleEnd := p.stream == some "lifecycle" && p.dataPhase == some "end"
      let isLifecycleError := p.stream == some "lifecycle" && p.dataPhase == some "error"
      let isStatusDone := p.status == some "done"
      let isStatusError := p.status == some "error"
      if isLifecycleEnd || isStatusDone || isLifecycleError || isStatusError then
        let s := sendAssistantRoleChunk s
        let s := writeSseChunk s {} (some "stop")
        let s := { s with out := s.out ++ [SseItem.doneLine] }
        { guardedOff s with closed := true }
      else s
  else s

/-- The asynchronous triggers that can reach one streaming request:
a gateway event, the SSE stream's `close` event, and the settlement of
the run-issue request (`runId = res.runId` on success, the `catch`
branch on failure). -/
inductive StreamTrigger where
  | agentEvent (evName : String) (p : AgentPayload) (now : Nat)
  | streamClose
  | issueResponse (resRunId : Str)
  | issueError (errMsg : Str)

/-- One trigger applied to the streaming request state (server.ts
lines 1050-1132: the event handler, the `stream.on('close')` handler,
and the run-issue IIFE). -/
def streamStep (effSessionId : Str) (sessionKey : String)
    (s : StreamState) : StreamTrigger → StreamState
  | .agentEvent n p now => eventHandler effSessionId sessionKey now s n p
  | .streamClose => guardedOff s
  | .issueResponse rid => { s with runId := some rid }
  | .issueError msg =>
      let s := clientOff s
      let s := sendAssistantRoleChunk s
      let s := writeSseChunk s { content := some (.str ("Error: ".data ++ msg)) } (some "stop")
      let s := { s with out := s.out ++ [SseItem.doneLine] }
      { s with closed := true }

/-- A trace of triggers folded over the streaming request state. -/
def runStream (effSessionId : Str) (sessionKey : String)
    (s : StreamState) : List StreamTrigger → StreamState
  | [] => s
  | t :: ts => runStream effSessionId sessionKey (streamStep effSessionId sessionKey s t) ts

/-! ## Server: non-streaming request (the `donePromise` closure) -/

/-- State of one non-streaming chat-completion request while it waits
on `donePromise` (server.ts lines 1136-1217).  `settled` is the promise:
`some true` once resolved, `some false` once rejected (timeout). -/
structure NsState where
  runId : Option Str
  fullContent : Str
  fullReasoning : Str
  timerActive : Bool
  registered : Bool
  removals : Nat
  settled : Option Bool
  pendingApprovals : String → Option PendingApproval

/-- State right after `client.on('event', eventHandler)` inside the
promise executor. -/
def initNsState (runId0 : Option Str)
    (pa : String → Option PendingApproval) : NsState :=
  { runId := runId0, fullContent := [], fullReasoning := []
    timerActive := true, registered := true, removals := 0
    settled := none, pendingApprovals := pa }

/-- `client.off` for the non-streaming handler (same idempotent
EventEmitter removal). -/
def nsOff (s : NsState) : NsState :=
  if s.registered then { s with registered := false, removals := s.removals + 1 } else s

/-- `appendDeltaText(delta)` (server.ts lines 1144-1158). -/
def appendDeltaText (s : NsState) (raw : JsValue) : NsState :=
  let normalized := normalizeDeltaPayload raw
  let s := if jsFieldTruthy (lookupField normalized "content") then
      { s with fullContent :=
          s.fullContent ++ jsToString (fieldVal (lookupField normalized "content")) }
    else s
  let s := if jsFieldTruthy (lookupField normalized "reasoning_content") then
      { s with fullReasoning :=
          s.fullReasoning ++ jsToString (fieldVal (lookupField normalized "reasoning_content")) }
    else s
  let s := if jsFieldTruthy (lookupField normalized "thinking") then
      { s with fullReasoning :=
          s.fullReasoning ++ jsToString (fieldVal (lookupField normalized "thinking")) }
    else s
  if jsFieldTruthy (lookupField normalized "thought") then
    { s with fullReasoning :=
        s.fullReasoning ++ jsToString (fieldVal (lookupField normalized "thought")) }
  else s

/-- The `requires_confirmation` branch of the non-streaming handler
(server.ts lines 1186-1193): overwrite the content with the notice,
record the pending approval, `clearTimeout`, `client.off`, `resolve()`. -/
def nsConfirmBranch (sessionKey : String) (now : Nat) (s : NsState) : NsState :=
  { nsOff { s with fullContent := approvalNotice
                   pendingApprovals := mapSet s.pendingApprovals sessionKey ⟨s.runId, now⟩
                   timerActive := false }
    with settled := some true }

/-- The delta-accumulation phase of the non-streaming handler
(server.ts lines 1195-1202): two independent `if`s, so an event carrying
both shapes appends twice. -/
def nsDeltaPhase (p : AgentPayload) (s : NsState) : NsState :=
  let s := if p.stream == some "assistant" && p.dataDelta.isSome then
      appendDeltaText s (fieldVal p.dataDelta)
    else s
  if p.delta.isSome then appendDeltaText s (fieldVal p.delta) else s

/-- The terminal branch of the non-streaming handler (server.ts lines
1207-1212): append the error suffix on error, `clearTimeout`,
`client.off`, `resolve()`. -/
def nsTerminalBranch (isError : Bool) (s : NsState) : NsState :=
  { nsOff { (if isError then
               { s with fullContent := s.fullContent ++ " [Error from Agent]".data }
             else s)
            with timerActive := false }
    with settled := some true }

/-- The non-streaming `eventHandler` closure (server.ts lines 1177-1214). -/
def nsEventHandler (effSessionId : Str) (sessionKey : String) (now : Nat)
    (s : NsState) (evName : String) (p : AgentPayload) : NsState :=
  if !s.registered then s
  else if evName == "agent" && matchesBinding effSessionId s.runId p then
    let s := if !(jsTruthyOptStr s.runId) && jsTruthyOptStr p.runId
             then { s with runId := p.runId } else s
    if p.status = some "requires_confirmation" then
      nsConfirmBranch sessionKey now s
    else
      let s := nsDeltaPhase p s
      let isEnd := (p.stream == some "lifecycle" && p.dataPhase == some "end")
        || p.status == some "done"
      let isError := (p.stream == some "lifecycle" && p.dataPhase == some "error")
        || p.status == some "error"
      if isEnd || isError then nsTerminalBranch isError s
      else s
  else s

/-- Triggers reaching the non-streaming wait: a gateway event or the
60s overall timer firing. -/
inductive NsTrigger where
  | agentEvent (evName : String) (p : AgentPayload) (now : Nat)
  | timeout

/-- One trigger applied to the non-streaming state (the timer callback
runs only while the timer is armed; terminal paths call `clearTimeout`). -/
def nsStep (effSessionId : Str) (sessionKey : String)
    (s : NsState) : NsTrigger → NsState
  | .agentEvent n p now => nsEventHandler effSessionId sessionKey now s n p
  | .timeout =>
      if s.timerActive then
        { nsOff { s with timerActive := false } with settled := some false }
      else s

/-- A trace of triggers folded over the non-streaming state. -/
def runNs (effSessionId : Str) (sessionKey : String)
    (s : NsState) : List NsTrigger → NsState
  | [] => s
  | t :: ts => runNs effSessionId sessionKey (nsStep effSessionId sessionKey s t) ts

/-- The buffered completion message built once `donePromise` resolves
(server.ts lines 1234-1248): always a normal completion. -/
structure CompletionMsg where
  content : Str
  finish_reason : String

/-- The `choices[0]` of the non-streaming 200 response. -/
def nsCompletion (s : NsState) : CompletionMsg :=
  { content := processFullResponse s.fullContent s.fullReasoning
    finish_reason := "stop" }

/-! ## Server: approval gate and run issuance -/

/-- Result of the pending-approval check at the top of a request
(server.ts lines 1037-1048, identically 1160-1169): the updated map and
the route-closure variables `runId` / `isResuming`. -/
structure ApprovalCheckResult where
  pendingApprovals : String → Option PendingApproval
  runId : Option Str
  isResuming : Bool

/-- The pending-approval check: if an entry exists for the session key
and `lastMessage.content.trim().toUpperCase() === 'APPROVE'`, resume
the stored runId; any other body just clears the entry. -/
def checkPendingApproval (pa : String → Option PendingApproval)
    (sessionKey : String) (lastContent : Str) : ApprovalCheckResult :=
  match pa sessionKey with
  | some pending =>
    if jsToUpper (jsTrim lastContent) = "APPROVE".data then
      { pendingApprovals := mapDelete pa sessionKey
        runId := pending.runId, isResuming := true }
    else
      { pendingApprovals := mapDelete pa sessionKey
        runId := none, isResuming := false }
  | none => { pendingApprovals := pa, runId := none, isResuming := false }

/-- What the request then sends to the gateway (server.ts lines
1113-1123 / 1220-1231): `agent.approve` when resuming with a truthy
runId, otherwise a fresh `agent` run request. -/
inductive RunAction where
  | approve (runId : Str)
  | issueNewRun

/-- `if (isResuming && runId) await client.approveRun(runId) else ...`. -/
def issuedAction (isResuming : Bool) (runId : Option Str) : RunAction :=
  match isResuming, runId with
  | true, some r => if r.isEmpty then .issueNewRun else .approve r
  | _, _ => .issueNewRun

/-! ## Server: session map and the hourly cleanup sweep -/

/-- A `sessionMap` entry. -/
structure SessionEntry where
  remoteSessionId : Str
  timestamp : Nat

/-- The session-map part of the hourly cleanup sweep (server.ts lines
751-757): delete entries with `now - timestamp > 86400000`. -/
def cleanupSessions (now : Nat)
    (sm : String → Option SessionEntry) : String → Option SessionEntry :=
  fun k => match sm k with
    | some v => if now - v.timestamp > 86400000 then none else some v
    | none => none

/-- The pending-approvals part of the hourly cleanup sweep (server.ts
lines 744-750): delete entries with `now - timestamp > 3600000`. -/
def cleanupApprovals (now : Nat)
    (pa : String → Option PendingApproval) : String → Option PendingApproval :=
  fun k => match pa k with
    | some v => if now - v.timestamp > 3600000 then none else some v
    | none => none

/-- The session-resolution block of a request (server.ts lines 924-936):
a turn is a new chat when the message list is short or no mapping is
truthy; new chats mint `freshId`, other turns refresh the timestamp.
Returns the updated map and the effective remote session id. -/
def sessionAccess (sm : String → Option SessionEntry) (sessionKey : String)
    (msgCount : Nat) (freshId : Str) (now : Nat) :
    (String → Option SessionEntry) × Str :=
  let sessionData := sm sessionKey
  let remoteSessionId := sessionData.map (·.remoteSessionId)
  let isNewChat := decide (msgCount ≤ 2) || !(jsTruthyOptStr remoteSessionId)
  if isNewChat then
    (mapSet sm sessionKey ⟨freshId, now⟩, freshId)
  else
    match sessionData with
    | some sd => (mapSet sm sessionKey ⟨sd.remoteSessionId, now⟩, sd.remoteSessionId)
    | none => (sm, [])

/-- Traffic relevant to one key of the session map: requests touching
the map interleaved with cleanup sweeps. -/
inductive SessOp where
  | access (key : String) (msgCount : Nat) (freshId : Str) (now : Nat)
  | sweep (now : Nat)

/-- A trace of session-map operations. -/
def runSessOps (sm : String → Option SessionEntry) :
    List SessOp → (String → Option SessionEntry)
  | [] => sm
  | .access k mc f now :: rest => runSessOps (sessionAccess sm k mc f now).1 rest
  | .sweep now :: rest => runSessOps (cleanupSessions now sm) rest

/-- Along a trace, every sweep happens within 24h of the last access to
`key` (`t` is the timestamp of the entry at the start). -/
def sweepsWithin24h (key : String) : Nat → List SessOp → Prop
  | _, [] => True
  | t, .access k _ _ now :: rest => sweepsWithin24h key (if k = key then now else t) rest
  | t, .sweep now :: rest => now - t ≤ 86400000 ∧ sweepsWithin24h key t rest

/-! ## Gateway client (`src/lib/client.ts`) -/

/-- The `GatewayClient` state read and written by its message handling:
the `connectStarted` flag of the live `connect()` closure, the stored
challenge nonce, the pending-request ids, and observable effects
(connect requests sent by `sendConnect`, rejections of pending
requests, re-emitted events). -/
structure ClientState where
  connectStarted : Bool
  connectNonce : Option Str
  pending : List String
  rejections : Nat
  sentConnects : Nat
  emittedEvents : List String

/-- An inbound frame as the message handlers destructure it. -/
inductive WsMsg where
  | res (id : String) (ok : Bool)
  | event (name : String) (nonce : Option Str)

/-- The live `ws.on('message')` handler installed by `connect()`
(client.ts lines 148-191): responses settle pending entries; a
`connect.challenge` event stores the nonce but sends a `connect`
request only when `connectStarted` is still false; every event is
re-emitted to listeners. -/
def wsMessageHandler (s : ClientState) : WsMsg → ClientState
  | .res id ok =>
    if s.pending.contains id then
      { s with pending := s.pending.filter (· ≠ id)
               rejections := if ok then s.rejections else s.rejections + 1 }
    else s
  | .event name nonce =>
    if name = "connect.challenge" then
      let s := { s with connectNonce := nonce }
      let s := if !s.connectStarted then
          { s with connectStarted := true, sentConnects := s.sentConnects + 1 }
        else s
      { s with emittedEvents := s.emittedEvents ++ [name] }
    else { s with emittedEvents := s.emittedEvents ++ [name] }

/-- The `handleMessage` method (client.ts lines 199-232).  It would
re-send a signed `connect` request on every challenge, but nothing in
the class ever installs it: it is dead code. -/
def handleMessage (s : ClientState) : WsMsg → ClientState
  | .res id ok =>
    if s.pending.contains id then
      { s with pending := s.pending.filter (· ≠ id)
               rejections := if ok then s.rejections else s.rejections + 1 }
    else s
  | .event name nonce =>
    if name = "connect.challenge" then
      { s with connectNonce := nonce, sentConnects := s.sentConnects + 1 }
    else { s with emittedEvents := s.emittedEvents ++ [name] }

/-! ## Claims C9, C3, C7, C1 -/

/-- Keys of a normalised payload object. -/
def keysOf (l : List (String × JsValue)) : List String := l.map Prod.fst

/-- C9: the normalizer's output contains none of the forbidden internal
keys when the payload is an object; a bare string payload becomes an
object whose only key is `content` holding that string; and a null or
undefined payload becomes the empty object, which `forwardDelta` drops
without writing any chunk. -/
theorem normalizer_strips_internal_fields :
    (∀ (fields : List (String × JsValue)) (k : String),
        k ∈ FORBIDDEN_FIELDS → k ∉ keysOf (normalizeDeltaPayload (.obj fields)))
    ∧ (∀ s : Str, normalizeDeltaPayload (.str s) = [("content", .str s)])
    ∧ normalizeDeltaPayload .null = []
    ∧ normalizeDeltaPayload .undefined = []
    ∧ (∀ s : StreamState, forwardDelta s .null = s ∧ forwardDelta s .undefined = s) := by
  refine ⟨?_, fun s => rfl, rfl, rfl, fun s => ⟨rfl, rfl⟩⟩
  intro fields k hk hmem
  simp only [keysOf, normalizeDeltaPayload, List.mem_map, List.mem_filter] at hmem
  obtain ⟨kv, ⟨-, hkeep⟩, hfst⟩ := hmem
  rw [hfst] at hkeep
  simp [List.contains_iff_exists_mem_beq] at hkeep
  exact hkeep hk

/-- C9 witness: a concrete object payload containing the forbidden key
`usage` loses it in the normalised output. -/
theorem normalizer_strips_internal_fields_witness :
    "usage" ∈ FORBIDDEN_FIELDS
    ∧ "usage" ∉ keysOf (normalizeDeltaPayload
        (.obj [("usage", .num 3), ("content", .str "hi".data)])) :=
  ⟨by decide, normalizer_strips_internal_fields.1 _ "usage" (by decide)⟩

/-- C3: with a pending approval recorded for the session key, a request
whose last message body trims and upper-cases to the literal token
APPROVE issues an approve command against the stored runId (no new run),
and any other body deletes the pending approval and issues a brand-new
run; in both cases the entry is consumed. -/
theorem approval_gate_resume_or_new_run :
    ∀ (pa : String → Option PendingApproval) (sessionKey : String) (body : Str),
      (∀ (r : Str) (t : Nat), pa sessionKey = some ⟨some r, t⟩ → r ≠ [] →
        jsToUpper (jsTrim body) = "APPROVE".data →
        issuedAction (checkPendingApproval pa sessionKey body).isResuming
            (checkPendingApproval pa sessionKey body).runId = .approve r
          ∧ (checkPendingApproval pa sessionKey body).pendingApprovals sessionKey = none)
      ∧ (∀ p : PendingApproval, pa sessionKey = some p →
        jsToUpper (jsTrim body) ≠ "APPROVE".data →
        issuedAction (checkPendingApproval pa sessionKey body).isResuming
            (checkPendingApproval pa sessionKey body).runId = .issueNewRun
          ∧ (checkPendingApproval pa sessionKey body).pendingApprovals sessionKey = none) := by
  intro pa sessionKey body
  constructor
  · intro r t hpa hr happ
    simp only [checkPendingApproval, hpa, if_pos happ]
    refine ⟨?_, by simp [mapDelete]⟩
    simp [issuedAction, List.isEmpty_iff, hr]
  · intro p hpa happ
    simp only [checkPendingApproval, hpa, if_neg happ]
    exact ⟨rfl, by simp [mapDelete]⟩

/-- C3 witness: a concrete pending approval consumed by the body
`" aPProve "` (case-insensitive, surrounding whitespace). -/
theorem approval_gate_resume_or_new_run_witness :
    issuedAction
        (checkPendingApproval
          (fun k => if k = "agent:a:main" then some ⟨some "run-1".data, 5⟩ else none)
          "agent:a:main" " aPProve ".data).isResuming
        (checkPendingApproval
          (fun k => if k = "agent:a:main" then some ⟨some "run-1".data, 5⟩ else none)
          "agent:a:main" " aPProve ".data).runId = .approve "run-1".data
    ∧ (checkPendingApproval
          (fun k => if k = "agent:a:main" then some ⟨some "run-1".data, 5⟩ else none)
          "agent:a:main" " aPProve ".data).pendingApprovals "agent:a:main" = none :=
  (approval_gate_resume_or_new_run _ "agent:a:main" _).1 "run-1".data 5
    rfl (by decide) (by decide)

/-- C7: a `connect.challenge` event arriving after the handshake has
completed (`connectStarted` already true) does NOT trigger a
re-authentication in the live message handler installed by `connect()`:
only the nonce is stored and the event re-emitted, no new `connect`
request is sent, and pending application requests are untouched.  The
unreferenced `handleMessage` method would have re-sent `connect` — the
re-authentication logic exists only as dead code. -/
theorem challenge_after_handshake_not_reauthenticated :
    (wsMessageHandler
        { connectStarted := true, connectNonce := some "n1".data
          pending := ["req-42"], rejections := 0
          sentConnects := 1, emittedEvents := [] }
        (.event "connect.challenge" (some "n2".data))).sentConnects = 1
    ∧ (wsMessageHandler
        { connectStarted := true, connectNonce := some "n1".data
          pending := ["req-42"], rejections := 0
          sentConnects := 1, emittedEvents := [] }
        (.event "connect.challenge" (some "n2".data))).pending = ["req-42"]
    ∧ (wsMessageHandler
        { connectStarted := true, connectNonce := some "n1".data
          pending := ["req-42"], rejections := 0
          sentConnects := 1, emittedEvents := [] }
        (.event "connect.challenge" (some "n2".data))).rejections = 0
    ∧ (wsMessageHandler
        { connectStarted := true, connectNonce := some "n1".data
          pending := ["req-42"], rejections := 0
          sentConnects := 1, emittedEvents := [] }
        (.event "connect.challenge" (some "n2".data))).connectNonce = some "n2".data
    ∧ (handleMessage
        { connectStarted := true, connectNonce := some "n1".data
          pending := ["req-42"], rejections := 0
          sentConnects := 1, emittedEvents := [] }
        (.event "connect.challenge" (some "n2".data))).sentConnects = 2 :=
  ⟨rfl, rfl, rfl, rfl, rfl⟩

/-- C1 counterexample: an execution where the agent event locks
runId `run-A` before the run-issue response arrives with runId `run-B`:
the response unconditionally overwrites the lock (and writes nothing to
the SSE sink, i.e. nothing is logged or surfaced). -/
theorem response_runid_overwrites_lock_counterexample :
    (runStream "sess-1".data "key1" (initStreamState none (fun _ => none))
        [.agentEvent "agent"
          { runId := some "run-A".data, sessionKey := some "sess-1".data
            delta := some (.str "hello".data) } 0]).runId = some "run-A".data
    ∧ (runStream "sess-1".data "key1" (initStreamState none (fun _ => none))
        [.agentEvent "agent"
          { runId := some "run-A".data, sessionKey := some "sess-1".data
            delta := some (.str "hello".data) } 0,
         .issueResponse "run-B".data]).runId = some "run-B".data
    ∧ (some "run-B".data ≠ some "run-A".data) := by
  refine ⟨by decide, rfl, by decide⟩

/-- C1 amended: when the `agent` request resolves, its response runId
unconditionally replaces the binding's runId — even one already locked
by an earlier event — and nothing else happens (no log, no write, no
inconsistency handling): the whole step is exactly the runId overwrite. -/
theorem response_runid_overwrites_lock :
    ∀ (eff : Str) (sk : String) (s : StreamState) (r : Str),
      streamStep eff sk s (.issueResponse r) = { s with runId := some r } :=
  fun _ _ _ _ => rfl

/-! ## Claim C8: TTL semantics of the maps -/

lemma mapSet_self {α : Type} (m : String → Option α) (k : String) (v : α) :
    mapSet m k v k = some v := by simp [mapSet]

lemma mapSet_other {α : Type} (m : String → Option α) (k q : String) (v : α)
    (h : q ≠ k) : mapSet m k v q = m q := by simp [mapSet, h]

lemma sessionAccess_self (sm : String → Option SessionEntry) (k : String)
    (mc : Nat) (f : Str) (now : Nat) :
    ∃ rid, (sessionAccess sm k mc f now).1 k = some ⟨rid, now⟩ := by
  unfold sessionAccess
  by_cases h : (decide (mc ≤ 2) || !(jsTruthyOptStr ((sm k).map (·.remoteSessionId)))) = true
  · exact ⟨f, by simp [h, mapSet]⟩
  · rcases hsm : sm k with - | sd
    · exact absurd (by simp [hsm, jsTruthyOptStr]) h
    · rw [hsm] at h
      simp only [Option.map_some, Bool.or_eq_true, decide_eq_true_eq,
        Bool.not_eq_eq_eq_not, Bool.not_true, not_or] at h
      refine ⟨sd.remoteSessionId, ?_⟩
      have h2 : jsTruthyOptStr (some sd.remoteSessionId) ≠ false := by simpa using h.2
      simp [hsm, h.1, h2, mapSet]

lemma sessionAccess_other (sm : String → Option SessionEntry) (k q : String)
    (mc : Nat) (f : Str) (now : Nat) (h : q ≠ k) :
    (sessionAccess sm k mc f now).1 q = sm q := by
  unfold sessionAccess
  dsimp only
  split
  · simp [mapSet, h]
  · split
    · simp [mapSet, h]
    · rfl

lemma session_survives (ops : List SessOp) :
    ∀ (sm : String → Option SessionEntry) (k : String) (e : SessionEntry),
      sm k = some e → sweepsWithin24h k e.timestamp ops →
      ∃ e', runSessOps sm ops k = some e' := by
  induction ops with
  | nil => exact fun sm k e h _ => ⟨e, h⟩
  | cons op rest ih =>
    intro sm k e h hw
    cases op with
    | access k' mc f now =>
      by_cases hk : k' = k
      · subst hk
        obtain ⟨rid, hx⟩ := sessionAccess_self sm k' mc f now
        exact ih _ k' ⟨rid, now⟩ hx (by simpa [sweepsWithin24h] using hw)
      · have hx : (sessionAccess sm k' mc f now).1 k = sm k :=
          sessionAccess_other sm k' k mc f now (fun hq => hk hq.symm)
        exact ih _ k e (hx.trans h) (by simpa [sweepsWithin24h, hk] using hw)
    | sweep now =>
      obtain ⟨hle, hw'⟩ := hw
      exact ih _ k e (by simp [cleanupSessions, h, Nat.not_lt.mpr hle]) hw'

/-- C8: a cleanup sweep at time `now` removes a session entry exactly
when it has been idle for more than 24h and keeps it unchanged
otherwise; it removes a pending approval exactly when it is older than
1h (no follow-up request needed); every request on a key refreshes its
session timestamp to `now`; and along any trace of requests and sweeps
in which each sweep falls within 24h of the last access, the session
entry stays present. -/
theorem ttl_sweep_semantics :
    (∀ (sm : String → Option SessionEntry) (now : Nat) (k : String) (e : SessionEntry),
        sm k = some e →
        cleanupSessions now sm k = if now - e.timestamp > 86400000 then none else some e)
    ∧ (∀ (pa : String → Option PendingApproval) (now : Nat) (k : String) (a : PendingApproval),
        pa k = some a →
        cleanupApprovals now pa k = if now - a.timestamp > 3600000 then none else some a)
    ∧ (∀ (sm : String → Option SessionEntry) (k : String) (mc : Nat) (f : Str) (now : Nat),
        ∃ rid, (sessionAccess sm k mc f now).1 k = some ⟨rid, now⟩)
    ∧ (∀ (ops : List SessOp) (sm : String → Option SessionEntry) (k : String) (e : SessionEntry),
        sm k = some e → sweepsWithin24h k e.timestamp ops →
        ∃ e', runSessOps sm ops k = some e') :=
  ⟨fun sm now k e h => by simp [cleanupSessions, h],
   fun pa now k a h => by simp [cleanupApprovals, h],
   sessionAccess_self,
   session_survives⟩

/-- C8 witness: a session entry idle 24h+1ms is gone after a sweep, a
pending approval older than 1h is gone after a sweep, and a session
entry survives a trace whose sweeps stay within the 24h window. -/
theorem ttl_sweep_semantics_witness :
    cleanupSessions 87400001
        (fun k => if k = "s" then some ⟨"rid".data, 1000000⟩ else none) "s" = none
    ∧ cleanupApprovals 4601001
        (fun k => if k = "s" then some ⟨some "r".data, 1000000⟩ else none) "s" = none
    ∧ ∃ e', runSessOps
        (fun k => if k = "s" then some ⟨"rid".data, 1000000⟩ else none)
        [.sweep 2000000, .access "s" 5 "fresh".data 3000000, .sweep 80000000] "s" = some e' := by
  refine ⟨?_, ?_, ?_⟩
  · rw [ttl_sweep_semantics.1
      (fun k => if k = "s" then some ⟨"rid".data, 1000000⟩ else none)
      87400001 "s" ⟨"rid".data, 1000000⟩ rfl]
    norm_num
  · rw [ttl_sweep_semantics.2.1
      (fun k => if k = "s" then some ⟨some "r".data, 1000000⟩ else none)
      4601001 "s" ⟨some "r".data, 1000000⟩ rfl]
    norm_num
  · exact ttl_sweep_semantics.2.2.2 _ _ "s" ⟨"rid".data, 1000000⟩ rfl
      (by norm_num [sweepsWithin24h])

/-! ## Claim C2: listener deregistration discipline

`removals` counts effective deregistrations.  The invariant
`removals = (if registered then 0 else 1)` says: never more than one
effective removal, and exactly one as soon as the listener is gone. -/

@[simp] lemma ite_stream_registered (c : Prop) [Decidable c] (a b : StreamState) :
    (if c then a else b).registered = if c then a.registered else b.registered := by
  split <;> rfl

@[simp] lemma ite_stream_removals (c : Prop) [Decidable c] (a b : StreamState) :
    (if c then a else b).removals = if c then a.removals else b.removals := by
  split <;> rfl

@[simp] lemma ite_stream_listenerRemoved (c : Prop) [Decidable c] (a b : StreamState) :
    (if c then a else b).listenerRemoved
      = if c then a.listenerRemoved else b.listenerRemoved := by
  split <;> rfl

@[simp] lemma writeSseChunk_registered (s : StreamState) (d : DeltaObj) (f : Option String) :
    (writeSseChunk s d f).registered = s.registered := rfl

@[simp] lemma writeSseChunk_removals (s : StreamState) (d : DeltaObj) (f : Option String) :
    (writeSseChunk s d f).removals = s.removals := rfl

@[simp] lemma writeSseChunk_listenerRemoved (s : StreamState) (d : DeltaObj) (f : Option String) :
    (writeSseChunk s d f).listenerRemoved = s.listenerRemoved := rfl

@[simp] lemma sendAssistantRoleChunk_registered (s : StreamState) :
    (sendAssistantRoleChunk s).registered = s.registered := by
  unfold sendAssistantRoleChunk; split <;> rfl

@[simp] lemma sendAssistantRoleChunk_removals (s : StreamState) :
    (sendAssistantRoleChunk s).removals = s.removals := by
  unfold sendAssistantRoleChunk; split <;> rfl

@[simp] lemma sendAssistantRoleChunk_listenerRemoved (s : StreamState) :
    (sendAssistantRoleChunk s).listenerRemoved = s.listenerRemoved := by
  unfold sendAssistantRoleChunk; split <;> rfl

@[simp] lemma sendContentChunk_registered (s : StreamState) (t : Option Str) :
    (sendContentChunk s t).registered = s.registered := by
  cases t <;> simp [sendContentChunk]

@[simp] lemma sendContentChunk_removals (s : StreamState) (t : Option Str) :
    (sendContentChunk s t).removals = s.removals := by
  cases t <;> simp [sendContentChunk]

@[simp] lemma sendContentChunk_listenerRemoved (s : StreamState) (t : Option Str) :
    (sendContentChunk s t).listenerRemoved = s.listenerRemoved := by
  cases t <;> simp [sendContentChunk]

@[simp] lemma forwardDelta_registered (s : StreamState) (raw : JsValue) :
    (forwardDelta s raw).registered = s.registered := by
  unfold forwardDelta; dsimp only; split
  · rfl
  · split <;> simp

@[simp] lemma forwardDelta_removals (s : StreamState) (raw : JsValue) :
    (forwardDelta s raw).removals = s.removals := by
  unfold forwardDelta; dsimp only; split
  · rfl
  · split <;> simp

@[simp] lemma forwardDelta_listenerRemoved (s : StreamState) (raw : JsValue) :
    (forwardDelta s raw).listenerRemoved = s.listenerRemoved := by
  unfold forwardDelta; dsimp only; split
  · rfl
  · split <;> simp

lemma clientOff_registered_false (s : StreamState) : (clientOff s).registered = false := by
  unfold clientOff; split
  · rfl
  · next h => simpa using h

lemma clientOff_rr (s : StreamState) :
    ((clientOff s).registered = s.registered ∧ (clientOff s).removals = s.removals)
    ∨ (s.registered = true ∧ (clientOff s).registered = false
        ∧ (clientOff s).removals = s.removals + 1) := by
  by_cases h : s.registered = true
  · exact Or.inr ⟨h, by simp [clientOff, h], by simp [clientOff, h]⟩
  · exact Or.inl ⟨by simp [clientOff, h], by simp [clientOff, h]⟩

lemma guardedOff_rr (s : StreamState) :
    ((guardedOff s).registered = s.registered ∧ (guardedOff s).removals = s.removals)
    ∨ (s.registered = true ∧ (guardedOff s).registered = false
        ∧ (guardedOff s).removals = s.removals + 1) := by
  unfold guardedOff
  by_cases h : s.listenerRemoved = true
  · exact Or.inl ⟨by simp [h], by simp [h]⟩
  · rcases clientOff_rr { s with listenerRemoved := true } with ⟨h1, h2⟩ | ⟨h0, h1, h2⟩
    · exact Or.inl ⟨by simp [h, h1], by simp [h, h2]⟩
    · exact Or.inr ⟨h0, by simp [h, h1], by simp [h, h2]⟩

lemma rr_of_guardedOff_closed (s X : StreamState)
    (h1 : X.registered = s.registered) (h2 : X.removals = s.removals) :
    (({ guardedOff X with closed := true } : StreamState).registered = s.registered
      ∧ ({ guardedOff X with closed := true } : StreamState).removals = s.removals)
    ∨ (s.registered = true
      ∧ ({ guardedOff X with closed := true } : StreamState).registered = false
      ∧ ({ guardedOff X with closed := true } : StreamState).removals = s.removals + 1) := by
  rcases guardedOff_rr X with ⟨g1, g2⟩ | ⟨g0, g1, g2⟩
  · exact Or.inl ⟨by simpa [h1] using g1, by simpa [h2] using g2⟩
  · exact Or.inr ⟨h1 ▸ g0, by simpa using g1, by simpa [h2] using g2⟩

lemma streamStep_rr (eff : Str) (sk : String) (s : StreamState) (tr : StreamTrigger) :
    ((streamStep eff sk s tr).registered = s.registered
      ∧ (streamStep eff sk s tr).removals = s.removals)
    ∨ (s.registered = true ∧ (streamStep eff sk s tr).registered = false
      ∧ (streamStep eff sk s tr).removals = s.removals + 1) := by
  cases tr with
  | issueResponse rid => exact Or.inl ⟨rfl, rfl⟩
  | streamClose => exact guardedOff_rr s
  | issueError m =>
    rcases clientOff_rr s with ⟨h1, h2⟩ | ⟨h0, h1, h2⟩
    · exact Or.inl ⟨by simp [streamStep, h1], by simp [streamStep, h2]⟩
    · exact Or.inr ⟨h0, by simp [streamStep, h1], by simp [streamStep, h2]⟩
  | agentEvent n p now =>
    have hstep : streamStep eff sk s (.agentEvent n p now) = eventHandler eff sk now s n p := rfl
    rw [hstep]
    unfold eventHandler
    dsimp only
    split
    · exact Or.inl ⟨rfl, rfl⟩
    split
    · split
      · exact rr_of_guardedOff_closed s _ (by simp) (by simp)
      · split
        · exact rr_of_guardedOff_closed s _ (by simp) (by simp)
        · exact Or.inl ⟨by simp, by simp⟩
    · exact Or.inl ⟨rfl, rfl⟩

lemma runStream_inv (eff : Str) (sk : String) (ts : List StreamTrigger) :
    ∀ s : StreamState, s.removals = (if s.registered then 0 else 1) →
      (runStream eff sk s ts).removals
        = if (runStream eff sk s ts).registered then 0 else 1 := by
  induction ts with
  | nil => exact fun s h => h
  | cons t ts ih =>
    intro s h
    apply ih
    rcases streamStep_rr eff sk s t with ⟨h1, h2⟩ | ⟨h0, h1, h2⟩
    · rw [h1, h2]; exact h
    · rw [h1, h2, h, if_pos h0]; simp

@[simp] lemma ite_ns_registered (c : Prop) [Decidable c] (a b : NsState) :
    (if c then a else b).registered = if c then a.registered else b.registered := by
  split <;> rfl

@[simp] lemma ite_ns_removals (c : Prop) [Decidable c] (a b : NsState) :
    (if c then a else b).removals = if c then a.removals else b.removals := by
  split <;> rfl

@[simp] lemma ite_ns_timerActive (c : Prop) [Decidable c] (a b : NsState) :
    (if c then a else b).timerActive = if c then a.timerActive else b.timerActive := by
  split <;> rfl

@[simp] lemma appendDeltaText_registered (s : NsState) (raw : JsValue) :
    (appendDeltaText s raw).registered = s.registered := by
  simp [appendDeltaText]

@[simp] lemma appendDeltaText_removals (s : NsState) (raw : JsValue) :
    (appendDeltaText s raw).removals = s.removals := by
  simp [appendDeltaText]

@[simp] lemma appendDeltaText_timerActive (s : NsState) (raw : JsValue) :
    (appendDeltaText s raw).timerActive = s.timerActive := by
  simp [appendDeltaText]

@[simp] lemma nsOff_timerActive (s : NsState) : (nsOff s).timerActive = s.timerActive := by
  unfold nsOff; split <;> rfl

lemma nsOff_registered_false (s : NsState) : (nsOff s).registered = false := by
  unfold nsOff; split
  · rfl
  · next h => simpa using h

lemma nsOff_removals (s : NsState) :
    (nsOff s).removals = if s.registered then s.removals + 1 else s.removals := by
  unfold nsOff; split <;> rfl

lemma nsConfirmBranch_registered (sk : String) (now : Nat) (s : NsState) :
    (nsConfirmBranch sk now s).registered = false :=
  nsOff_registered_false _

lemma nsConfirmBranch_timerActive (sk : String) (now : Nat) (s : NsState) :
    (nsConfirmBranch sk now s).timerActive = false := by
  show (nsOff _).timerActive = false
  rw [nsOff_timerActive]

lemma nsConfirmBranch_removals (sk : String) (now : Nat) (s : NsState) :
    (nsConfirmBranch sk now s).removals
      = if s.registered then s.removals + 1 else s.removals := by
  show (nsOff _).removals = _
  rw [nsOff_removals]

lemma nsTerminalBranch_registered (e : Bool) (s : NsState) :
    (nsTerminalBranch e s).registered = false :=
  nsOff_registered_false _

lemma nsTerminalBranch_timerActive (e : Bool) (s : NsState) :
    (nsTerminalBranch e s).timerActive = false := by
  show (nsOff _).timerActive = false
  rw [nsOff_timerActive]

lemma nsTerminalBranch_removals (e : Bool) (s : NsState) :
    (nsTerminalBranch e s).removals
      = if s.registered then s.removals + 1 else s.removals := by
  show (nsOff _).removals = _
  rw [nsOff_removals]
  simp

@[simp] lemma nsDeltaPhase_registered (p : AgentPayload) (s : NsState) :
    (nsDeltaPhase p s).registered = s.registered := by
  simp [nsDeltaPhase]

@[simp] lemma nsDeltaPhase_removals (p : AgentPayload) (s : NsState) :
    (nsDeltaPhase p s).removals = s.removals := by
  simp [nsDeltaPhase]

@[simp] lemma nsDeltaPhase_timerActive (p : AgentPayload) (s : NsState) :
    (nsDeltaPhase p s).timerActive = s.timerActive := by
  simp [nsDeltaPhase]

lemma nsStep_inv (eff : Str) (sk : String) (s : NsState) (tr : NsTrigger)
    (h1 : s.removals = if s.registered then 0 else 1)
    (h2 : s.timerActive = true → s.registered = true) :
    ((nsStep eff sk s tr).removals = if (nsStep eff sk s tr).registered then 0 else 1)
    ∧ ((nsStep eff sk s tr).timerActive = true → (nsStep eff sk s tr).registered = true) := by
  cases tr with
  | timeout =>
    have heq : nsStep eff sk s .timeout
        = if s.timerActive then
            { nsOff { s with timerActive := false } with settled := some false }
          else s := rfl
    rw [heq]
    by_cases ht : s.timerActive = true
    · have hreg : s.registered = true := h2 ht
      have h0 : s.removals = 0 := by rw [h1, if_pos hreg]
      rw [if_pos (by simp [ht])]
      constructor
      · show (nsOff _).removals = if (nsOff _).registered then 0 else 1
        rw [nsOff_removals, nsOff_registered_false]
        simp [hreg, h0]
      · intro h
        exfalso
        simp [nsOff_timerActive] at h
    · rw [if_neg (by simpa using ht)]
      exact ⟨h1, h2⟩
  | agentEvent n p now =>
    have hstep : nsStep eff sk s (.agentEvent n p now) = nsEventHandler eff sk now s n p := rfl
    rw [hstep]
    unfold nsEventHandler
    dsimp only
    split
    · exact ⟨h1, h2⟩
    next hr =>
      have hreg : s.registered = true := by simpa using hr
      have h0 : s.removals = 0 := by rw [h1, if_pos hreg]
      split
      · split
        · constructor
          · rw [nsConfirmBranch_removals, nsConfirmBranch_registered]
            simp [hreg, h0]
          · intro h
            rw [nsConfirmBranch_timerActive] at h
            exact absurd h (by simp)
        · split
          · constructor
            · rw [nsTerminalBranch_removals, nsTerminalBranch_registered]
              simp [hreg, h0]
            · intro h
              rw [nsTerminalBranch_timerActive] at h
              exact absurd h (by simp)
          · constructor
            · simpa using h1
            · intro h
              simp at h
              simpa using h2 h
      · exact ⟨h0, fun _ => hreg⟩

lemma runNs_inv (eff : Str) (sk : String) (ts : List NsTrigger) :
    ∀ s : NsState,
      s.removals = (if s.registered then 0 else 1) →
      (s.timerActive = true → s.registered = true) →
      (runNs eff sk s ts).removals
        = if (runNs eff sk s ts).registered then 0 else 1 := by
  induction ts with
  | nil => exact fun s h _ => h
  | cons t ts ih =>
    intro s h1 h2
    exact ih _ (nsStep_inv eff sk s t h1 h2).1 (nsStep_inv eff sk s t h1 h2).2

/-- The terminal payload shapes of claim C2: status done / error,
lifecycle end / error, confirmation-required. -/
def isTerminalPayload (p : AgentPayload) : Prop :=
  p.status = some "done" ∨ p.status = some "error"
  ∨ (p.stream = some "lifecycle" ∧ (p.dataPhase = some "end" ∨ p.dataPhase = some "error"))
  ∨ p.status = some "requires_confirmation"

lemma guardedOff_registered_false_of (X : StreamState) (h : X.listenerRemoved = false) :
    (guardedOff X).registered = false := by
  unfold guardedOff
  rw [if_pos (by simp [h])]
  exact clientOff_registered_false _

lemma eventHandler_terminal_deregisters (eff : Str) (sk : String) (now : Nat)
    (s : StreamState) (p : AgentPayload)
    (hreg : s.registered = true) (hlr : s.listenerRemoved = false)
    (hm : matchesBinding eff s.runId p = true) (ht : isTerminalPayload p) :
    (eventHandler eff sk now s "agent" p).registered = false := by
  unfold eventHandler
  rw [if_neg (by simp [hreg]), if_pos (by simp [hm])]
  dsimp only
  by_cases hconf : p.status = some "requires_confirmation"
  · rw [if_pos hconf]
    exact guardedOff_registered_false_of _ (by simp [hlr])
  · rw [if_neg hconf]
    rw [if_pos ?hor]
    case hor =>
      rcases ht with hst | hst | ⟨hs1, hs2 | hs2⟩ | hst
      · simp [hst]
      · simp [hst]
      · simp [hs1, hs2]
      · simp [hs1, hs2]
      · exact absurd hst hconf
    exact guardedOff_registered_false_of _ (by simp [hlr])

lemma nsEventHandler_terminal_deregisters (eff : Str) (sk : String) (now : Nat)
    (s : NsState) (p : AgentPayload)
    (hreg : s.registered = true)
    (hm : matchesBinding eff s.runId p = true) (ht : isTerminalPayload p) :
    (nsEventHandler eff sk now s "agent" p).registered = false := by
  unfold nsEventHandler
  rw [if_neg (by simp [hreg]), if_pos (by simp [hm])]
  dsimp only
  by_cases hconf : p.status = some "requires_confirmation"
  · rw [if_pos hconf]
    exact nsConfirmBranch_registered _ _ _
  · rw [if_neg hconf]
    rw [if_pos ?hor]
    case hor =>
      rcases ht with hst | hst | ⟨hs1, hs2 | hs2⟩ | hst
      · simp [hst]
      · simp [hst]
      · simp [hs1, hs2]
      · simp [hs1, hs2]
      · exact absurd hst hconf
    exact nsTerminalBranch_registered _ _

/-- C2: along every trace of a streaming or non-streaming request, the
number of effective listener removals is 0 while the listener is still
registered and exactly 1 once it is not (so never more than one);
removal on an already-deregistered listener is a no-op, not an error;
and every terminal path — status done / error, lifecycle end / error,
confirmation-required, stream close (client disconnect), and the
non-streaming timeout — leaves the listener deregistered. -/
theorem listener_deregistered_exactly_once :
    (∀ (eff : Str) (sk : String) (runId0 : Option Str)
        (pa : String → Option PendingApproval) (ts : List StreamTrigger),
        (runStream eff sk (initStreamState runId0 pa) ts).removals
          = if (runStream eff sk (initStreamState runId0 pa) ts).registered then 0 else 1)
    ∧ (∀ s : StreamState, s.registered = false → clientOff s = s)
    ∧ (∀ (eff : Str) (sk : String) (now : Nat) (s : StreamState) (p : AgentPayload),
        s.registered = true → s.listenerRemoved = false →
        matchesBinding eff s.runId p = true → isTerminalPayload p →
        (eventHandler eff sk now s "agent" p).registered = false)
    ∧ (∀ (eff : Str) (sk : String) (s : StreamState),
        (streamStep eff sk s .streamClose).registered = false
          ∨ s.listenerRemoved = true)
    ∧ (∀ (eff : Str) (sk : String) (runId0 : Option Str)
        (pa : String → Option PendingApproval) (ts : List NsTrigger),
        (runNs eff sk (initNsState runId0 pa) ts).removals
          = if (runNs eff sk (initNsState runId0 pa) ts).registered then 0 else 1)
    ∧ (∀ s : NsState, s.registered = false → nsOff s = s)
    ∧ (∀ (eff : Str) (sk : String) (now : Nat) (s : NsState) (p : AgentPayload),
        s.registered = true →
        matchesBinding eff s.runId p = true → isTerminalPayload p →
        (nsEventHandler eff sk now s "agent" p).registered = false)
    ∧ (∀ (eff : Str) (sk : String) (s : NsState), s.timerActive = true →
        (nsStep eff sk s .timeout).registered = false) := by
  refine ⟨?_, ?_, eventHandler_terminal_deregisters, ?_, ?_, ?_,
    nsEventHandler_terminal_deregisters, ?_⟩
  · intro eff sk runId0 pa ts
    exact runStream_inv eff sk ts _ rfl
  · intro s h
    unfold clientOff
    rw [if_neg (by simp [h])]
  · intro eff sk s
    by_cases h : s.listenerRemoved = true
    · exact Or.inr h
    · exact Or.inl (guardedOff_registered_false_of s (by simpa using h))
  · intro eff sk runId0 pa ts
    exact runNs_inv eff sk ts _ rfl (fun _ => rfl)
  · intro s h
    unfold nsOff
    rw [if_neg (by simp [h])]
  · intro eff sk s ht
    show (if s.timerActive then
        ({ nsOff { s with timerActive := false } with settled := some false } : NsState)
      else s).registered = false
    rw [if_pos (by simp [ht])]
    exact nsOff_registered_false _

/-- C2 witness: a concrete terminal event (status done) on a fresh
registered streaming listener deregisters it, and the trace invariant
instantiated on a concrete trace gives exactly one removal. -/
theorem listener_deregistered_exactly_once_witness :
    (eventHandler "sess".data "k" 0 (initStreamState none (fun _ => none)) "agent"
      { sessionKey := some "sess".data, status := some "done" }).registered = false
    ∧ (runStream "sess".data "k" (initStreamState none (fun _ => none))
        [.agentEvent "agent" { sessionKey := some "sess".data, status := some "done" } 0,
         .streamClose]).removals
      = if (runStream "sess".data "k" (initStreamState none (fun _ => none))
        [.agentEvent "agent" { sessionKey := some "sess".data, status := some "done" } 0,
         .streamClose]).registered then 0 else 1 :=
  ⟨listener_deregistered_exactly_once.2.2.1 "sess".data "k" 0 _ _ rfl rfl (by decide)
      (Or.inl rfl),
   listener_deregistered_exactly_once.1 "sess".data "k" none (fun _ => none) _⟩

/-! ## Claim C10: run errors surface as normal completions -/

@[simp] lemma ite_stream_out (c : Prop) [Decidable c] (a b : StreamState) :
    (if c then a else b).out = if c then a.out else b.out := by
  split <;> rfl

@[simp] lemma ite_stream_assistantRoleSent (c : Prop) [Decidable c] (a b : StreamState) :
    (if c then a else b).assistantRoleSent
      = if c then a.assistantRoleSent else b.assistantRoleSent := by
  split <;> rfl

@[simp] lemma ite_ns_fullContent (c : Prop) [Decidable c] (a b : NsState) :
    (if c then a else b).fullContent = if c then a.fullContent else b.fullContent := by
  split <;> rfl

@[simp] lemma nsOff_fullContent (s : NsState) : (nsOff s).fullContent = s.fullContent := by
  unfold nsOff; split <;> rfl

@[simp] lemma guardedOff_out (s : StreamState) : (guardedOff s).out = s.out := by
  unfold guardedOff clientOff
  split
  · split <;> rfl
  · rfl

lemma nsTerminalBranch_fullContent (e : Bool) (s : NsState) :
    (nsTerminalBranch e s).fullContent
      = if e then s.fullContent ++ " [Error from Agent]".data else s.fullContent := by
  show (nsOff _).fullContent = _
  rw [nsOff_fullContent]
  simp

/-- C10: a matched terminal event with status error or lifecycle phase
error never produces an HTTP- or SSE-level error.  Streaming: the
handler appends (at most a role chunk and) a chunk with finish_reason
"stop" followed by the literal [DONE] line, then ends the stream.
Non-streaming: the promise resolves (is not rejected), the content gets
" [Error from Agent]" appended, and the completion built from the
resolved state carries finish_reason "stop". -/
theorem run_error_surfaced_as_normal_completion :
    (∀ (eff : Str) (sk : String) (now : Nat) (s : StreamState) (p : AgentPayload),
        s.registered = true → s.listenerRemoved = false →
        matchesBinding eff s.runId p = true →
        (p.status = some "error" ∨ (p.stream = some "lifecycle" ∧ p.dataPhase = some "error")) →
        p.status ≠ some "requires_confirmation" →
        p.dataDelta = none → p.delta = none →
        (eventHandler eff sk now s "agent" p).out
          = s.out
            ++ (if s.assistantRoleSent then []
                else [SseItem.chunk { role := some (.str "assistant".data) } none])
            ++ [SseItem.chunk {} (some "stop"), SseItem.doneLine]
        ∧ (eventHandler eff sk now s "agent" p).closed = true
        ∧ (eventHandler eff sk now s "agent" p).registered = false)
    ∧ (∀ (eff : Str) (sk : String) (now : Nat) (s : NsState) (p : AgentPayload),
        s.registered = true →
        matchesBinding eff s.runId p = true →
        (p.status = some "error" ∨ (p.stream = some "lifecycle" ∧ p.dataPhase = some "error")) →
        p.status ≠ some "requires_confirmation" →
        p.dataDelta = none → p.delta = none →
        (nsEventHandler eff sk now s "agent" p).settled = some true
        ∧ (nsEventHandler eff sk now s "agent" p).fullContent
            = s.fullContent ++ " [Error from Agent]".data)
    ∧ (∀ s : NsState, (nsCompletion s).finish_reason = "stop") := by
  refine ⟨?_, ?_, fun s => rfl⟩
  · intro eff sk now s p hreg hlr hm herr hconf hdd hd
    have hr0 : ¬((!s.registered) = true) := by simp [hreg]
    have hm0 : (("agent" : String) == "agent" && matchesBinding eff s.runId p) = true := by
      simp [hm]
    have hnd1 : ¬((p.stream == some "assistant" && p.dataDelta.isSome) = true) := by
      rw [hdd]; simp
    have hnd2 : ¬(p.delta.isSome = true) := by rw [hd]; simp
    have horB : (p.stream == some "lifecycle" && p.dataPhase == some "end"
        || p.status == some "done"
        || p.stream == some "lifecycle" && p.dataPhase == some "error"
        || p.status == some "error") = true := by
      rcases herr with hst | ⟨hs1, hs2⟩
      · simp [hst]
      · simp [hs1, hs2]
    unfold eventHandler
    rw [if_neg hr0, if_pos hm0]
    dsimp only
    rw [if_neg hconf, if_neg hnd1, if_neg hnd2, if_pos horB]
    refine ⟨?_, rfl, guardedOff_registered_false_of _ (by simp [hlr])⟩
    by_cases hrs : s.assistantRoleSent = true
    · simp [sendAssistantRoleChunk, writeSseChunk, hrs, List.append_assoc]
    · simp [sendAssistantRoleChunk, writeSseChunk, hrs, List.append_assoc]
  · intro eff sk now s p hreg hm herr hconf hdd hd
    have hr0 : ¬((!s.registered) = true) := by simp [hreg]
    have hm0 : (("agent" : String) == "agent" && matchesBinding eff s.runId p) = true := by
      simp [hm]
    have hnd1 : ¬((p.stream == some "assistant" && p.dataDelta.isSome) = true) := by
      rw [hdd]; simp
    have hnd2 : ¬(p.delta.isSome = true) := by rw [hd]; simp
    have horB : ((p.stream == some "lifecycle" && p.dataPhase == some "end")
        || p.status == some "done"
        || ((p.stream == some "lifecycle" && p.dataPhase == some "error")
            || p.status == some "error")) = true := by
      rcases herr with hst | ⟨hs1, hs2⟩
      · simp [hst]
      · simp [hs1, hs2]
    have herrB : ((p.stream == some "lifecycle" && p.dataPhase == some "error")
        || p.status == some "error") = true := by
      rcases herr with hst | ⟨hs1, hs2⟩
      · simp [hst]
      · simp [hs1, hs2]
    have hdp : ∀ X : NsState, nsDeltaPhase p X = X := by
      intro X
      unfold nsDeltaPhase
      rw [if_neg hnd1, if_neg hnd2]
    unfold nsEventHandler
    rw [if_neg hr0, if_pos hm0]
    dsimp only
    rw [if_neg hconf, hdp, if_pos horB]
    refine ⟨rfl, ?_⟩
    rw [nsTerminalBranch_fullContent, herrB]
    simp

/-- C10 witness: a concrete matched status-error event on a fresh
streaming request emits role chunk, stop chunk and [DONE]; on a fresh
non-streaming request it resolves with the error suffix appended. -/
theorem run_error_surfaced_as_normal_completion_witness :
    (eventHandler "sess".data "k" 0 (initStreamState none (fun _ => none)) "agent"
        { sessionKey := some "sess".data, status := some "error" }).out
      = [SseItem.chunk { role := some (.str "assistant".data) } none,
         SseItem.chunk {} (some "stop"), SseItem.doneLine]
    ∧ (nsEventHandler "sess".data "k" 0 (initNsState none (fun _ => none)) "agent"
        { sessionKey := some "sess".data, status := some "error" }).fullContent
      = " [Error from Agent]".data := by
  constructor
  · have h := (run_error_surfaced_as_normal_completion.1 "sess".data "k" 0
      (initStreamState none (fun _ => none))
      { sessionKey := some "sess".data, status := some "error" }
      rfl rfl (by decide) (Or.inl rfl) (by decide) rfl rfl).1
    simpa [initStreamState] using h
  · have h := (run_error_surfaced_as_normal_completion.2.1 "sess".data "k" 0
      (initNsState none (fun _ => none))
      { sessionKey := some "sess".data, status := some "error" }
      rfl (by decide) (Or.inl rfl) (by decide) rfl rfl).2
    simpa [initNsState] using h

/-! ## Claim C6: native marker bails to passthrough -/

/-- The delta's `content` is a string literally containing the opening
marker (the bail trigger of `processDelta`). -/
def contentHasThinkTag (d : DeltaObj) : Bool :=
  match d.content with
  | some v =>
    match v.asString with
    | some s => containsSub thinkTag s
    | none => false
  | none => false

/-- The delta is not diverted by the role guard
(`delta.role && delta.role !== 'assistant'`). -/
def roleAllowsProcessing (d : DeltaObj) : Bool :=
  !((fieldVal d.role).truthy && !((fieldVal d.role).isStrEq "assistant".data))

lemma processDelta_bailed (st : PState) (d : DeltaObj) (h : st.hasBailed = true) :
    processDelta st d = (st, d) := by
  unfold processDelta
  rw [if_pos h]

lemma runDeltas_bailed (ds : List DeltaObj) :
    ∀ st : PState, st.hasBailed = true → runDeltas st ds = (st, ds) := by
  induction ds with
  | nil => intro st _; rfl
  | cons d ds ih =>
    intro st h
    show (let r := processDelta st d
          let rest := runDeltas r.1 ds
          ((rest.1, r.2 :: rest.2) : PState × List DeltaObj)) = (st, d :: ds)
    rw [processDelta_bailed st d h]
    simp [ih st h]

lemma runDeltas_length (ds : List DeltaObj) :
    ∀ st : PState, (runDeltas st ds).2.length = ds.length := by
  induction ds with
  | nil => intro st; rfl
  | cons d ds ih =>
    intro st
    show (runDeltas (processDelta st d).1 ds).2.length + 1 = ds.length + 1
    rw [ih]

lemma runDeltas_append (xs ys : List DeltaObj) : ∀ st : PState,
    runDeltas st (xs ++ ys)
      = ((runDeltas (runDeltas st xs).1 ys).1,
         (runDeltas st xs).2 ++ (runDeltas (runDeltas st xs).1 ys).2) := by
  induction xs with
  | nil => intro st; simp [runDeltas]
  | cons d xs ih =>
    intro st
    show (let r := processDelta st d
          let rest := runDeltas r.1 (xs ++ ys)
          ((rest.1, r.2 :: rest.2) : PState × List DeltaObj)) = _
    dsimp only
    rw [ih]
    simp [runDeltas]

lemma processDelta_bails (st : PState) (d : DeltaObj)
    (hb : st.hasBailed = false)
    (hrole : roleAllowsProcessing d = true)
    (hc : contentHasThinkTag d = true) :
    (processDelta st d).1.hasBailed = true ∧ (processDelta st d).2 = d := by
  have hrole' : ((fieldVal d.role).truthy
      && !((fieldVal d.role).isStrEq "assistant".data)) = false := by
    cases hx : ((fieldVal d.role).truthy && !((fieldVal d.role).isStrEq "assistant".data)) with
    | false => rfl
    | true =>
      rw [roleAllowsProcessing, hx] at hrole
      exact absurd hrole (by decide)
  rcases hcon : d.content with - | v
  · simp [contentHasThinkTag, hcon] at hc
  · rcases v with - | - | s | n | b | fs <;>
      simp only [contentHasThinkTag, hcon, JsValue.asString] at hc <;>
      try simp at hc
    have hsne : s ≠ [] := by
      intro hnil
      rw [hnil] at hc
      simp [containsSub, thinkTag] at hc
    have hse : s.isEmpty = false := by
      simpa [List.isEmpty_iff] using hsne
    have hc1 : ¬(st.hasBailed = true) := by simp [hb]
    have hc2 : ¬(((fieldVal d.role).truthy
        && !((fieldVal d.role).isStrEq "assistant".data)) = true) := by
      simp [hrole']
    have hbail : (match (jsOr (fieldVal d.content) (.str [])).asString with
        | some s => containsSub thinkTag s
        | none => false) = true := by
      rw [hcon]
      simp [fieldVal, jsOr, JsValue.truthy, hse, JsValue.asString, hc]
    unfold processDelta
    rw [if_neg hc1, if_neg hc2, if_pos hbail]
    exact ⟨rfl, rfl⟩

/-- C6 counterexample: the first delta's content literally contains the
opening marker, but carries role `tool`, so the role guard returns it
before the bail flag is set: the next delta is still rewritten
(reasoning is wrapped and stripped), not passed through. -/
theorem native_marker_bail_counterexample :
    contentHasThinkTag
        { role := some (.str "tool".data), content := some (.str "<think>".data) } = true
    ∧ (runDeltas PState.init
        [{ role := some (.str "tool".data), content := some (.str "<think>".data) },
         { reasoning_content := some (.str "R".data) }]).2[1]?
      ≠ some { reasoning_content := some (.str "R".data) } := by
  refine ⟨by decide, ?_⟩
  intro h
  have h1 : (runDeltas PState.init
      [{ role := some (.str "tool".data), content := some (.str "<think>".data) },
       { reasoning_content := some (.str "R".data) }]).2[1]?
      = some { content := some (.str "<think>R".data) } := rfl
  rw [h1] at h
  have h2 := congrArg DeltaObj.reasoning_content (Option.some.inj h)
  simp at h2

/-- C6 amended: if a delta whose role guard does not divert it (role
absent or assistant) has content literally containing the opening
marker, the processor bails: that delta and every later delta of the
run are returned verbatim (no marker injection, no field stripping, no
incremental rewriting), i.e. the output list ends with the remaining
input deltas unchanged. -/
theorem native_marker_bails_to_passthrough :
    ∀ (pre post : List DeltaObj) (d : DeltaObj),
      roleAllowsProcessing d = true → contentHasThinkTag d = true →
      ∃ (os : List DeltaObj) (st : PState),
        runDeltas PState.init (pre ++ d :: post) = (st, os ++ post)
        ∧ os.length = pre.length + 1 := by
  intro pre post d hrole hc
  rw [runDeltas_append]
  by_cases hb : (runDeltas PState.init pre).1.hasBailed = true
  · have h2 := runDeltas_bailed (d :: post) _ hb
    refine ⟨(runDeltas PState.init pre).2 ++ [d], (runDeltas PState.init pre).1, ?_, ?_⟩
    · rw [h2]; simp
    · simp [runDeltas_length]
  · have hbf : (runDeltas PState.init pre).1.hasBailed = false := by
      simpa using hb
    obtain ⟨hb1, -⟩ := processDelta_bails _ d hbf hrole hc
    have h2 := runDeltas_bailed post _ hb1
    refine ⟨(runDeltas PState.init pre).2
        ++ [(processDelta (runDeltas PState.init pre).1 d).2],
      (processDelta (runDeltas PState.init pre).1 d).1, ?_, ?_⟩
    · show ((runDeltas (processDelta _ d).1 post).1,
        _ ++ ((processDelta _ d).2 :: (runDeltas (processDelta _ d).1 post).2)) = _
      rw [h2]
      simp
    · simp [runDeltas_length]

/-- C6 amended witness: a marker-bearing assistant content delta makes
the following reasoning delta pass through verbatim. -/
theorem native_marker_bails_to_passthrough_witness :
    ∃ (os : List DeltaObj) (st : PState),
      runDeltas PState.init
          ([] ++ ({ content := some (.str "<think>x".data) } : DeltaObj)
            :: [{ reasoning_content := some (.str "R".data) }])
        = (st, os ++ [{ reasoning_content := some (.str "R".data) }])
      ∧ os.length = List.length ([] : List DeltaObj) + 1 :=
  native_marker_bails_to_passthrough [] _ _ (by decide) (by decide)

/-! ## Claim C5: one marker pair per reasoning-then-content turn

`countSub p s` counts the positions of `s` at which the pattern `p`
occurs (overlapping occurrences included), so "the output contains
exactly one opening marker" is `countSub thinkTag out = 1`. -/

/-- Number of occurrences (by starting position) of `p` in `s`. -/
def countSub (p : Str) : Str → Nat
  | [] => 0
  | c :: rest => (if p.isPrefixOf (c :: rest) then 1 else 0) + countSub p rest

/-- The string contains no `<` character, hence no marker fragment. -/
def ltFreeB (s : Str) : Bool := s.all (· != '<')

/-- A reasoning-only delta: no role, no content, and exactly the
`reasoning_content` alias carrying a `<`-free string. -/
def reasoningOnlyDelta (d : DeltaObj) : Bool :=
  d.role.isNone && d.content.isNone && d.thinking.isNone && d.thought.isNone &&
  (match d.reasoning_content with
   | some (.str s) => ltFreeB s
   | _ => false)

/-- A content-only delta: no role, no reasoning aliases, and a content
field carrying a `<`-free string. -/
def contentOnlyDelta (d : DeltaObj) : Bool :=
  d.role.isNone && d.reasoning_content.isNone && d.thinking.isNone && d.thought.isNone &&
  (match d.content with
   | some (.str s) => ltFreeB s
   | _ => false)

lemma ltFreeB_cons_iff {c : Char} {rest : Str} :
    ltFreeB (c :: rest) = true ↔ c ≠ '<' ∧ ltFreeB rest = true := by
  simp [ltFreeB]

lemma ltFreeB_append_iff {a b : Str} :
    ltFreeB (a ++ b) = true ↔ ltFreeB a = true ∧ ltFreeB b = true := by
  simp [ltFreeB]

lemma ltFreeB_drop (s : Str) (n : Nat) (h : ltFreeB s = true) :
    ltFreeB (s.drop n) = true := by
  rw [ltFreeB, List.all_eq_true] at h ⊢
  exact fun c hc => h c (List.mem_of_mem_drop hc)

lemma ltFreeB_getIncremental (s a : Str) (h : ltFreeB s = true) :
    ltFreeB (getIncremental s a) = true := by
  unfold getIncremental
  split
  · rfl
  · split
    · exact ltFreeB_drop s a.length h
    · exact h

lemma countSub_cons (p : Str) (c : Char) (rest : Str) :
    countSub p (c :: rest) = (if p.isPrefixOf (c :: rest) then 1 else 0) + countSub p rest :=
  rfl

lemma countSub_cons_ne_head (ps : Str) (c : Char) (rest : Str) (hc : c ≠ '<') :
    countSub ('<' :: ps) (c :: rest) = countSub ('<' :: ps) rest := by
  rw [countSub_cons]
  have h1 : (('<' :: ps).isPrefixOf (c :: rest)) = false := by
    rw [List.isPrefixOf_cons₂]
    rw [show (('<' : Char) == c) = false from beq_eq_false_iff_ne.mpr (fun he => hc he.symm)]
    rw [Bool.false_and]
  rw [h1]
  simp

lemma countSub_append_ltFree (ps y z : Str) (hy : ltFreeB y = true) :
    countSub ('<' :: ps) (y ++ z) = countSub ('<' :: ps) z := by
  induction y with
  | nil => rfl
  | cons c rest ih =>
    obtain ⟨hc, hrest⟩ := ltFreeB_cons_iff.mp hy
    rw [List.cons_append, countSub_cons_ne_head ps c _ hc, ih hrest]

lemma countSub_ltFree (ps y : Str) (hy : ltFreeB y = true) : countSub ('<' :: ps) y = 0 := by
  have h := countSub_append_ltFree ps y [] hy
  simpa using h

lemma countSub_cons_self (c : Char) (ps rest : Str) :
    countSub (c :: ps) ((c :: ps) ++ rest) = 1 + countSub (c :: ps) (ps ++ rest) := by
  rw [show ((c :: ps) ++ rest) = c :: (ps ++ rest) from rfl, countSub_cons]
  rw [if_pos ?hp]
  case hp =>
    rw [show (c :: (ps ++ rest)) = (c :: ps) ++ rest from rfl]
    simp

lemma countSub_thinkTag_total (R C : Str) (hR : ltFreeB R = true) (hC : ltFreeB C = true) :
    countSub thinkTag (thinkTag ++ (R ++ (thinkCloseTag ++ C))) = 1 := by
  rw [show thinkTag = '<' :: "think>".data from rfl]
  rw [countSub_cons_self]
  rw [countSub_append_ltFree _ _ _ (by decide)]
  rw [countSub_append_ltFree _ _ _ hR]
  have hskip : countSub ('<' :: "think>".data) (thinkCloseTag ++ C)
      = countSub ('<' :: "think>".data) ("/think>\n\n".data ++ C) := by
    rw [show (thinkCloseTag ++ C) = '<' :: ("/think>\n\n".data ++ C) from rfl]
    rw [countSub_cons]
    rw [if_neg ?hnp]
    case hnp =>
      intro hpre
      rw [show ('<' :: ("/think>\n\n".data ++ C)) = '<' :: '/' :: ("think>\n\n".data ++ C)
        from rfl] at hpre
      rw [show ("think>".data : Str) = 't' :: "hink>".data from rfl] at hpre
      rw [List.isPrefixOf_cons₂, List.isPrefixOf_cons₂] at hpre
      rw [show (('t' : Char) == '/') = false from by decide] at hpre
      simp at hpre
    simp
  rw [hskip]
  rw [countSub_append_ltFree _ _ _ (by decide)]
  rw [countSub_ltFree _ _ hC]

lemma countSub_thinkCloseTag_total (R C : Str) (hR : ltFreeB R = true) (hC : ltFreeB C = true) :
    countSub thinkCloseTag (thinkTag ++ (R ++ (thinkCloseTag ++ C))) = 1 := by
  show countSub ('<' :: "/think>\n\n".data)
      (thinkTag ++ (R ++ (('<' :: "/think>\n\n".data) ++ C))) = 1
  have hskip : countSub ('<' :: "/think>\n\n".data)
        (thinkTag ++ (R ++ (('<' :: "/think>\n\n".data) ++ C)))
      = countSub ('<' :: "/think>\n\n".data)
        ("think>".data ++ (R ++ (('<' :: "/think>\n\n".data) ++ C))) := by
    rw [show (thinkTag ++ (R ++ (('<' :: "/think>\n\n".data) ++ C)))
        = '<' :: ("think>".data ++ (R ++ (('<' :: "/think>\n\n".data) ++ C))) from rfl]
    rw [countSub_cons]
    rw [if_neg ?hnp2]
    case hnp2 =>
      intro hpre
      rw [show ('<' :: ("think>".data ++ (R ++ (('<' :: "/think>\n\n".data) ++ C))))
          = '<' :: 't' :: ("hink>".data ++ (R ++ (('<' :: "/think>\n\n".data) ++ C)))
        from rfl] at hpre
      rw [show (("/think>\n\n".data : Str)) = '/' :: "think>\n\n".data from rfl] at hpre
      rw [List.isPrefixOf_cons₂, List.isPrefixOf_cons₂] at hpre
      rw [show (('/' : Char) == 't') = false from by decide] at hpre
      simp at hpre
    simp
  rw [hskip]
  rw [countSub_append_ltFree _ _ _ (by decide)]
  rw [countSub_append_ltFree _ _ _ hR]
  rw [countSub_cons_self]
  rw [countSub_append_ltFree _ _ _ (by decide)]
  rw [countSub_ltFree _ _ hC]

lemma containsSub_eq_false_of_ltFree (s : Str) (h : ltFreeB s = true) :
    containsSub thinkTag s = false := by
  induction s with
  | nil => rfl
  | cons c rest ih =>
    obtain ⟨hc, hrest⟩ := ltFreeB_cons_iff.mp h
    show (thinkTag.isPrefixOf (c :: rest) || containsSub thinkTag rest) = false
    rw [ih hrest]
    rw [show (thinkTag : Str) = '<' :: "think>".data from rfl]
    rw [List.isPrefixOf_cons₂]
    rw [show (('<' : Char) == c) = false from beq_eq_false_iff_ne.mpr (fun he => hc he.symm)]
    rw [Bool.false_and, Bool.or_self]

lemma processDelta_reasoningOnly (st : PState) (d : DeltaObj) (s c : Str)
    (hrole : d.role = none) (hcon : d.content = none)
    (hthink : d.thinking = none) (hthought : d.thought = none)
    (hrc : d.reasoning_content = some (.str s))
    (hb : st.hasBailed = false)
    (hcdef : c = if s ≠ [] then getIncremental s st.accumulatedReasoning else []) :
    (processDelta st d).1
        = { st with isThinking := st.isThinking || !c.isEmpty,
                    accumulatedReasoning := st.accumulatedReasoning ++ c }
    ∧ emittedText (processDelta st d).2
        = (if st.isThinking = false ∧ c ≠ [] then thinkTag ++ c else c) := by
  have hrole' : ((fieldVal d.role).truthy
      && !((fieldVal d.role).isStrEq "assistant".data)) = false := by
    rw [hrole]; decide
  have hbail : (match (jsOr (fieldVal d.content) (.str [])).asString with
      | some u => containsSub thinkTag u
      | none => false) = false := by
    rw [hcon]; decide
  have hts : containsSub thinkTag ([] : Str) = false := rfl
  by_cases hs : s = []
  · subst hs
    have hc0 : c = [] := by simpa using hcdef
    subst hc0
    constructor
    · simp [processDelta, hb, hrole, hrole', hbail, hts, hrc, hcon, hthink, hthought,
        fieldVal, jsOr, JsValue.truthy, JsValue.asString, emittedText]
      rw [← hb]
    · simp [processDelta, hb, hrole, hrole', hbail, hts, hrc, hcon, hthink, hthought,
        fieldVal, jsOr, JsValue.truthy, JsValue.asString, emittedText]
  · have hse : s.isEmpty = false := by simpa [List.isEmpty_iff] using hs
    by_cases hcn : getIncremental s st.accumulatedReasoning = []
    · have hc0 : c = [] := by rw [hcdef, if_pos hs, hcn]
      subst hc0
      constructor
      · simp [processDelta, hb, hrole, hrole', hbail, hts, hrc, hcon, hthink, hthought,
          fieldVal, jsOr, JsValue.truthy, JsValue.asString, hse, hcn, emittedText]
        rw [← hb]
      · simp [processDelta, hb, hrole, hrole', hbail, hts, hrc, hcon, hthink, hthought,
          fieldVal, jsOr, JsValue.truthy, JsValue.asString, hse, hcn, emittedText]
    · have hcc : c = getIncremental s st.accumulatedReasoning := by rw [hcdef, if_pos hs]
      subst hcc
      have hie : (getIncremental s st.accumulatedReasoning).isEmpty = false := by
        simpa [List.isEmpty_iff] using hcn
      by_cases ht : st.isThinking = true
      · constructor <;>
          simp [processDelta, hb, hrole, hrole', hbail, hts, hrc, hcon, hthink, hthought,
            fieldVal, jsOr, JsValue.truthy, JsValue.asString, hse, hcn, hie, ht, emittedText]
      · have ht' : st.isThinking = false := by simpa using ht
        constructor <;>
          simp [processDelta, hb, hrole, hrole', hbail, hts, hrc, hcon, hthink, hthought,
            fieldVal, jsOr, JsValue.truthy, JsValue.asString, hse, hcn, hie, ht', emittedText]

lemma processDelta_contentOnly (st : PState) (d : DeltaObj) (s c : Str)
    (hrole : d.role = none) (hrc : d.reasoning_content = none)
    (hthink : d.thinking = none) (hthought : d.thought = none)
    (hcon : d.content = some (.str s))
    (hfree : ltFreeB s = true)
    (hb : st.hasBailed = false)
    (hcdef : c = if s ≠ [] then getIncremental s st.accumulatedContent else []) :
    (processDelta st d).1
        = { st with isThinking := st.isThinking && c.isEmpty,
                    accumulatedContent := st.accumulatedContent ++ c }
    ∧ emittedText (processDelta st d).2
        = (if st.isThinking = true ∧ c ≠ [] then thinkCloseTag ++ c else c) := by
  have hrole' : ((fieldVal d.role).truthy
      && !((fieldVal d.role).isStrEq "assistant".data)) = false := by
    rw [hrole]; decide
  have hts : containsSub thinkTag ([] : Str) = false := rfl
  have hcs : containsSub thinkTag s = false := containsSub_eq_false_of_ltFree s hfree
  have hbail : (match (jsOr (fieldVal d.content) (.str [])).asString with
      | some u => containsSub thinkTag u
      | none => false) = false := by
    rw [hcon]
    by_cases hemp : s = []
    · subst hemp; rfl
    · have hse' : s.isEmpty = false := by simpa [List.isEmpty_iff] using hemp
      simp [fieldVal, jsOr, JsValue.truthy, hse', JsValue.asString, hcs]
  by_cases hs : s = []
  · subst hs
    have hc0 : c = [] := by simpa using hcdef
    subst hc0
    constructor
    · simp [processDelta, hb, hrole, hrole', hbail, hts, hcs, hrc, hcon, hthink, hthought,
        fieldVal, jsOr, JsValue.truthy, JsValue.asString, emittedText]
      rw [← hb]
    · simp [processDelta, hb, hrole, hrole', hbail, hts, hcs, hrc, hcon, hthink, hthought,
        fieldVal, jsOr, JsValue.truthy, JsValue.asString, emittedText]
  · have hse : s.isEmpty = false := by simpa [List.isEmpty_iff] using hs
    by_cases hcn : getIncremental s st.accumulatedContent = []
    · have hc0 : c = [] := by rw [hcdef, if_pos hs, hcn]
      subst hc0
      constructor
      · simp [processDelta, hb, hrole, hrole', hbail, hts, hcs, hrc, hcon, hthink, hthought,
          fieldVal, jsOr, JsValue.truthy, JsValue.asString, hse, hcn, emittedText]
        rw [← hb]
      · simp [processDelta, hb, hrole, hrole', hbail, hts, hcs, hrc, hcon, hthink, hthought,
          fieldVal, jsOr, JsValue.truthy, JsValue.asString, hse, hcn, emittedText]
    · have hcc : c = getIncremental s st.accumulatedContent := by rw [hcdef, if_pos hs]
      subst hcc
      have hie : (getIncremental s st.accumulatedContent).isEmpty = false := by
        simpa [List.isEmpty_iff] using hcn
      by_cases ht : st.isThinking = true
      · constructor <;>
          simp [processDelta, hb, hrole, hrole', hbail, hts, hcs, hrc, hcon, hthink, hthought,
            fieldVal, jsOr, JsValue.truthy, JsValue.asString, hse, hcn, hie, ht, emittedText]
      · have ht' : st.isThinking = false := by simpa using ht
        constructor <;>
          simp [processDelta, hb, hrole, hrole', hbail, hts, hcs, hrc, hcon, hthink, hthought,
            fieldVal, jsOr, JsValue.truthy, JsValue.asString, hse, hcn, hie, ht', emittedText]

lemma reasoningOnly_destruct (d : DeltaObj) (h : reasoningOnlyDelta d = true) :
    d.role = none ∧ d.content = none ∧ d.thinking = none ∧ d.thought = none ∧
    ∃ s, d.reasoning_content = some (.str s) ∧ ltFreeB s = true := by
  simp only [reasoningOnlyDelta, Bool.and_eq_true, Option.isNone_iff_eq_none] at h
  obtain ⟨⟨⟨⟨h1, h2⟩, h3⟩, h4⟩, h5⟩ := h
  refine ⟨h1, h2, h3, h4, ?_⟩
  rcases hrc : d.reasoning_content with - | v
  · rw [hrc] at h5; simp at h5
  · rcases v with - | - | u | n | b | fs
    · rw [hrc] at h5; simp at h5
    · rw [hrc] at h5; simp at h5
    · rw [hrc] at h5; exact ⟨u, rfl, h5⟩
    · rw [hrc] at h5; simp at h5
    · rw [hrc] at h5; simp at h5
    · rw [hrc] at h5; simp at h5

lemma contentOnly_destruct (d : DeltaObj) (h : contentOnlyDelta d = true) :
    d.role = none ∧ d.reasoning_content = none ∧ d.thinking = none ∧ d.thought = none ∧
    ∃ s, d.content = some (.str s) ∧ ltFreeB s = true := by
  simp only [contentOnlyDelta, Bool.and_eq_true, Option.isNone_iff_eq_none] at h
  obtain ⟨⟨⟨⟨h1, h2⟩, h3⟩, h4⟩, h5⟩ := h
  refine ⟨h1, h2, h3, h4, ?_⟩
  rcases hcv : d.content with - | v
  · rw [hcv] at h5; simp at h5
  · rcases v with - | - | u | n | b | fs
    · rw [hcv] at h5; simp at h5
    · rw [hcv] at h5; simp at h5
    · rw [hcv] at h5; exact ⟨u, rfl, h5⟩
    · rw [hcv] at h5; simp at h5
    · rw [hcv] at h5; simp at h5
    · rw [hcv] at h5; simp at h5

lemma outText_cons (d : DeltaObj) (ds : List DeltaObj) :
    outText (d :: ds) = emittedText d ++ outText ds := by
  simp [outText]

lemma isEmpty_append_list {α : Type} (a b : List α) :
    (a ++ b).isEmpty = (a.isEmpty && b.isEmpty) := by
  cases a <;> simp

lemma reasoning_phase (rs : List DeltaObj) : ∀ st : PState,
    (∀ d ∈ rs, reasoningOnlyDelta d = true) →
    st.hasBailed = false →
    (runDeltas st rs).1.hasBailed = false
    ∧ (runDeltas st rs).1.accumulatedContent = st.accumulatedContent
    ∧ ∃ add : Str,
        (runDeltas st rs).1.accumulatedReasoning = st.accumulatedReasoning ++ add
        ∧ ltFreeB add = true
        ∧ (runDeltas st rs).1.isThinking = (st.isThinking || !add.isEmpty)
        ∧ outText (runDeltas st rs).2
            = (if st.isThinking = false ∧ add ≠ [] then thinkTag ++ add else add) := by
  induction rs with
  | nil =>
    intro st hall hb
    exact ⟨hb, rfl, [], by simp [runDeltas], rfl, by simp [runDeltas],
      by simp [outText, runDeltas]⟩
  | cons d rs ih =>
    intro st hall hb
    obtain ⟨hrole, hcon, hthink, hthought, s, hrc, hfree⟩ :=
      reasoningOnly_destruct d (hall d (by simp))
    obtain ⟨hst, hem⟩ :=
      processDelta_reasoningOnly st d s _ hrole hcon hthink hthought hrc hb rfl
    set c := (if s ≠ [] then getIncremental s st.accumulatedReasoning else []) with hcdefn
    have hb' : (processDelta st d).1.hasBailed = false := by rw [hst]; exact hb
    obtain ⟨ihb, ihc, add', ihacc, ihfree, ihth, ihout⟩ :=
      ih (processDelta st d).1 (fun d hd => hall d (by simp [hd])) hb'
    have hfc : ltFreeB c = true := by
      rw [hcdefn]
      split
      · exact ltFreeB_getIncremental s _ hfree
      · rfl
    have hstep : runDeltas st (d :: rs)
        = ((runDeltas (processDelta st d).1 rs).1,
           (processDelta st d).2 :: (runDeltas (processDelta st d).1 rs).2) := rfl
    rw [hstep]
    refine ⟨ihb, by rw [ihc, hst],
      c ++ add',
      ?_, ?_, ?_, ?_⟩
    · rw [ihacc, hst]; simp [List.append_assoc]
    · rw [ltFreeB_append_iff]; exact ⟨hfc, ihfree⟩
    · rw [ihth, hst]
      simp [isEmpty_append_list, Bool.or_assoc]
    · rw [outText_cons, hem, ihout, hst]
      by_cases hti : st.isThinking = true
      · simp [hti]
      · have hti' : st.isThinking = false := by simpa using hti
        by_cases hce : c = []
        · simp [hce, hti']
        · have hcie : c.isEmpty = false := by
            simpa [List.isEmpty_iff] using hce
          simp [hti', hce, hcie, List.append_assoc]

lemma content_phase (cs : List DeltaObj) : ∀ st : PState,
    (∀ d ∈ cs, contentOnlyDelta d = true) →
    st.hasBailed = false →
    (runDeltas st cs).1.hasBailed = false
    ∧ (runDeltas st cs).1.accumulatedReasoning = st.accumulatedReasoning
    ∧ ∃ add : Str,
        (runDeltas st cs).1.accumulatedContent = st.accumulatedContent ++ add
        ∧ ltFreeB add = true
        ∧ (runDeltas st cs).1.isThinking = (st.isThinking && add.isEmpty)
        ∧ outText (runDeltas st cs).2
            = (if st.isThinking = true ∧ add ≠ [] then thinkCloseTag ++ add else add) := by
  induction cs with
  | nil =>
    intro st hall hb
    exact ⟨hb, rfl, [], by simp [runDeltas], rfl, by simp [runDeltas],
      by simp [outText, runDeltas]⟩
  | cons d cs ih =>
    intro st hall hb
    obtain ⟨hrole, hrc, hthink, hthought, s, hcon, hfree⟩ :=
      contentOnly_destruct d (hall d (by simp))
    obtain ⟨hst, hem⟩ :=
      processDelta_contentOnly st d s _ hrole hrc hthink hthought hcon hfree hb rfl
    set c := (if s ≠ [] then getIncremental s st.accumulatedContent else []) with hcdefn
    have hb' : (processDelta st d).1.hasBailed = false := by rw [hst]; exact hb
    obtain ⟨ihb, ihr, add', ihacc, ihfree, ihth, ihout⟩ :=
      ih (processDelta st d).1 (fun d hd => hall d (by simp [hd])) hb'
    have hfc : ltFreeB c = true := by
      rw [hcdefn]
      split
      · exact ltFreeB_getIncremental s _ hfree
      · rfl
    have hstep : runDeltas st (d :: cs)
        = ((runDeltas (processDelta st d).1 cs).1,
           (processDelta st d).2 :: (runDeltas (processDelta st d).1 cs).2) := rfl
    rw [hstep]
    refine ⟨ihb, by rw [ihr, hst],
      c ++ add',
      ?_, ?_, ?_, ?_⟩
    · rw [ihacc, hst]; simp [List.append_assoc]
    · rw [ltFreeB_append_iff]; exact ⟨hfc, ihfree⟩
    · rw [ihth, hst]
      simp [isEmpty_append_list, Bool.and_assoc]
    · rw [outText_cons, hem, ihout, hst]
      by_cases hti : st.isThinking = true
      · by_cases hce : c = []
        · simp [hce, hti]
        · have hcie : c.isEmpty = false := by
            simpa [List.isEmpty_iff] using hce
          simp [hti, hce, hcie, List.append_assoc]
      · have hti' : st.isThinking = false := by simpa using hti
        simp [hti']

/-- C5: for a run consisting of reasoning deltas followed by content
deltas (each carrying marker-free text), with at least one reasoning
and one content contribution, the concatenated downstream text is
exactly the opening marker, the reasoning text, the closing marker plus
blank line, then the content text — so it contains exactly one opening
marker and exactly one closing-marker-plus-blank-line, and no reasoning
text appears after the closing marker. -/
theorem reasoning_block_single_marker_pair :
    ∀ (rs cs : List DeltaObj),
      (∀ d ∈ rs, reasoningOnlyDelta d = true) →
      (∀ d ∈ cs, contentOnlyDelta d = true) →
      (runDeltas PState.init (rs ++ cs)).1.accumulatedReasoning ≠ [] →
      (runDeltas PState.init (rs ++ cs)).1.accumulatedContent ≠ [] →
      outText (runDeltas PState.init (rs ++ cs)).2
        = thinkTag ++ ((runDeltas PState.init (rs ++ cs)).1.accumulatedReasoning
          ++ (thinkCloseTag ++ (runDeltas PState.init (rs ++ cs)).1.accumulatedContent))
      ∧ countSub thinkTag (outText (runDeltas PState.init (rs ++ cs)).2) = 1
      ∧ countSub thinkCloseTag (outText (runDeltas PState.init (rs ++ cs)).2) = 1 := by
  intro rs cs hrs hcs hRne hCne
  have hsplit := runDeltas_append rs cs PState.init
  obtain ⟨hb1, hc1, add_r, hacc1, hfree1, hth1, hout1⟩ :=
    reasoning_phase rs PState.init hrs rfl
  obtain ⟨hb2, hr2, add_c, hacc2, hfree2, hth2, hout2⟩ :=
    content_phase cs (runDeltas PState.init rs).1 hcs hb1
  have hfinal1 : (runDeltas PState.init (rs ++ cs)).1
      = (runDeltas (runDeltas PState.init rs).1 cs).1 := by rw [hsplit]
  have haccR : (runDeltas PState.init (rs ++ cs)).1.accumulatedReasoning = add_r := by
    rw [hfinal1, hr2, hacc1]
    simp [PState.init]
  have haccC : (runDeltas PState.init (rs ++ cs)).1.accumulatedContent = add_c := by
    rw [hfinal1, hacc2, hc1]
    simp [PState.init]
  have hra : add_r ≠ [] := haccR ▸ hRne
  have hca : add_c ≠ [] := haccC ▸ hCne
  have hth1' : (runDeltas PState.init rs).1.isThinking = true := by
    rw [hth1]
    simp [PState.init, List.isEmpty_iff, hra]
  have hout : outText (runDeltas PState.init (rs ++ cs)).2
      = outText (runDeltas PState.init rs).2
        ++ outText (runDeltas (runDeltas PState.init rs).1 cs).2 := by
    rw [hsplit]
    simp [outText]
  have hout1' : outText (runDeltas PState.init rs).2 = thinkTag ++ add_r := by
    rw [hout1]
    simp [PState.init, hra]
  have hout2' : outText (runDeltas (runDeltas PState.init rs).1 cs).2
      = thinkCloseTag ++ add_c := by
    rw [hout2]
    simp [hth1', hca]
  have htotal : outText (runDeltas PState.init (rs ++ cs)).2
      = thinkTag ++ (add_r ++ (thinkCloseTag ++ add_c)) := by
    rw [hout, hout1', hout2']
    simp [List.append_assoc]
  refine ⟨?_, ?_, ?_⟩
  · rw [haccR, haccC]
    exact htotal
  · rw [htotal]
    exact countSub_thinkTag_total add_r add_c hfree1 hfree2
  · rw [htotal]
    exact countSub_thinkCloseTag_total add_r add_c hfree1 hfree2

/-- C5 witness: reasoning "AB" then content "CD" produce
`<think>AB</think>\n\nCD` with exactly one marker of each kind. -/
theorem reasoning_block_single_marker_pair_witness :
    outText (runDeltas PState.init
        ([reasoningDelta "AB".data] ++ [contentDelta "CD".data])).2
      = thinkTag ++ ((runDeltas PState.init
          ([reasoningDelta "AB".data] ++ [contentDelta "CD".data])).1.accumulatedReasoning
        ++ (thinkCloseTag ++ (runDeltas PState.init
          ([reasoningDelta "AB".data] ++ [contentDelta "CD".data])).1.accumulatedContent))
    ∧ countSub thinkTag (outText (runDeltas PState.init
        ([reasoningDelta "AB".data] ++ [contentDelta "CD".data])).2) = 1
    ∧ countSub thinkCloseTag (outText (runDeltas PState.init
        ([reasoningDelta "AB".data] ++ [contentDelta "CD".data])).2) = 1 :=
  reasoning_block_single_marker_pair [reasoningDelta "AB".data] [contentDelta "CD".data]
    (by intro d hd; simp at hd; subst hd; decide)
    (by intro d hd; simp at hd; subst hd; decide)
    (by decide) (by decide)

end ClawProxy
